import Mathlib

/-!
Model of `scripts/jsonapi_bootstrap.go`.

A shallow embedding of the bootstrap script: the process is a function from an
environment (the gRPC service, the HTTP data API, the key-derivation library and
the clock) to an outcome, a chronological trace of the calls it issued and the
lines it printed.

* A gRPC call `resp, err := client.X(ctx, req)` is `Except String Resp`:
  `.error e` is `(nil, err)` and `.ok r` is `(resp, nil)`, the two shapes a
  generated gRPC client returns. The per-call timeout surfaces as `.error`.
* `log.Fatalf` is `Res.fatal`: the process stops there, nothing after it runs.
* Durations and clock readings are nanoseconds, as in Go's `time.Duration`.
  Only the poll reads the clock, so only the poll advances it: by the time each
  request takes and by each sleep, both chosen by the environment.
* `http.NewRequest` is a function of the environment: the source discards its
  error, so where it builds no request the next line dereferences a nil request
  and the process panics (`Fatal.nilPointer`, exit status 2).
-/

namespace JsonapiBootstrap

/-! ## Constants -/

def second : Nat := 1000000000

def minute : Nat := 60 * second

def defaultGrpcAddr : String := "127.0.0.1:31007"

def defaultJsonApi : String := "127.0.0.1:31009"

def defaultAppName : String := "jsonapi-cli"

def defaultProfile : String := "Json API user"

def defaultPlatform : String := "jsonapi-cli"

def defaultVersion : String := "0.0.0-jsonapi"

def defaultTimeout : Int := 2 * minute

def defaultWaitSpaces : Int := 2 * minute

def createProfileIcon : Int := 0

/-- The literal `5 * time.Second` slept between two polls. -/
def pollInterval : Nat := 5 * second

/-- The literal `10 * time.Second` given to `http.Client.Timeout`. -/
def httpClientTimeout : Nat := 10 * second

/-! ## Data model -/

/-- The command-line flags of `main`, after `flag.Parse`. -/
structure Flags where
  rootPath : String
  accountID : String
  mnemonic : String
  accountKey : String
  accountName : String
  grpcAddr : String
  jsonapiAddr : String
  appName : String
  createNewAcc : Bool
  platform : String
  version : String
  timeout : Int
  waitSpaces : Int

/-- The flag defaults registered in `main`. -/
def Flags.defaults : Flags :=
  { rootPath := "", accountID := "", mnemonic := "", accountKey := "",
    accountName := defaultProfile, grpcAddr := defaultGrpcAddr,
    jsonapiAddr := defaultJsonApi, appName := defaultAppName,
    createNewAcc := false, platform := defaultPlatform, version := defaultVersion,
    timeout := defaultTimeout, waitSpaces := defaultWaitSpaces }

/-- The `oneof auth` of `pb.RpcWalletCreateSessionRequest`, as far as the script sets it. -/
inductive Auth where
  | accountKey (accountKey : String)
  | mnemonic (mnemonic : String)
  deriving DecidableEq, Repr

/-- The scopes of `model.AccountAuthLocalApiScope`. -/
inductive LocalApiScope where
  | limited
  | jsonAPI
  | full
  deriving DecidableEq, Repr

/-- A gRPC request as it leaves the process: the method, the request fields the
script fills in, and the `token` metadata where the script attaches it. -/
inductive Rpc where
  | initialSetParameters (platform version workdir : String)
  | walletCreate (rootPath : String)
  | walletRecover (rootPath mnemonic accountKey : String)
  | accountSelect (id rootPath jsonApiListenAddr : String)
  | accountCreate (name : String) (icon : Int) (jsonApiListenAddr : String)
  | walletCreateSession (auth : Auth)
  | accountLocalLinkCreateApp (token appName : String) (scope : LocalApiScope)
  | accountStop (token : Option String)
  deriving DecidableEq, Repr

/-- Everything the process asks of its environment, in the order it asks. -/
inductive Event where
  | rpc (call : Rpc)
  | httpGet (url authorization : String)
  | walletAccountAt (mnemonic : String) (index : Nat)
  | walletDeriveFromAccountMasterNode (accountKey : String)
  deriving DecidableEq, Repr

/-- The `Error` message of a response: `code` is the enum value, 0 is `NULL`. -/
structure RpcError where
  code : Int
  description : String
  deriving DecidableEq, Repr

structure RpcInitialSetParametersResponse where
  error : Option RpcError

structure RpcWalletCreateResponse where
  error : Option RpcError
  mnemonic : String
  accountKey : String

structure RpcWalletRecoverResponse where
  error : Option RpcError

structure RpcAccountSelectResponse where
  error : Option RpcError

/-- The response of AccountCreate; `account` is `resp.Account.Id`, `none` when `resp.Account` is nil. -/
structure RpcAccountCreateResponse where
  error : Option RpcError
  account : Option String

structure RpcWalletCreateSessionResponse where
  error : Option RpcError
  token : String

structure RpcAccountLocalLinkCreateAppResponse where
  error : Option RpcError
  appKey : String

structure RpcAccountStopResponse where
  error : Option RpcError

/-- The value passed as `pbErr any`: the dynamic type is the constructor, the
payload is the pointer, `none` for a nil pointer (`resp.GetError()` of a nil or
error-free response). -/
inductive PBErr where
  | walletCreate (e : Option RpcError)
  | walletRecover (e : Option RpcError)
  | accountSelect (e : Option RpcError)
  | accountCreate (e : Option RpcError)
  | accountLocalLinkCreateApp (e : Option RpcError)
  | initialSetParameters (e : Option RpcError)
  | walletCreateSession (e : Option RpcError)
  | accountStop (e : Option RpcError)

/-- Space holds a minimal view of the /v1/spaces response. -/
structure Space where
  id : String
  name : String
  deriving DecidableEq, Repr

/-- What `client.Do` and the JSON decoder give for a request that was sent:
`body` is the decoded `spacesResponse.Data`, `none` when decoding fails. -/
inductive HttpReply where
  | transportError (msg : String)
  | response (statusCode : Nat) (body : Option (List Space))
  deriving DecidableEq, Repr

/-- One request as the environment answers it: the reply, the time the request
and the decoding took, and by how much the following `time.Sleep` overshot its
five seconds. -/
structure HttpRound where
  outcome : HttpReply
  reqDur : Nat
  sleepExtra : Nat

/-- What one iteration of the poll meets: `nilRequest` when `http.NewRequest`
built no request (line 304 discards the error, line 305 dereferences the nil
request), else the reply to the request it sent. -/
inductive HttpOutcome where
  | nilRequest
  | transportError (msg : String)
  | response (statusCode : Nat) (body : Option (List Space))
  deriving DecidableEq, Repr

/-- One iteration of the poll: what it meets, the time the request and the
decoding took, and by how much the following `time.Sleep` overshot. -/
structure HttpStep where
  outcome : HttpOutcome
  reqDur : Nat
  sleepExtra : Nat

/-- The environment of a run. Every service sees the history of the run up to
and including the request it answers, so a mock may answer each call differently.
`newRequest url` tells whether `http.NewRequest(http.MethodGet, url, nil)`
builds a request, that is, whether the URL parses. -/
structure Env where
  dial : Option String
  initialSetParameters : List Event → Except String RpcInitialSetParametersResponse
  walletCreate : List Event → Except String RpcWalletCreateResponse
  walletRecover : List Event → Except String RpcWalletRecoverResponse
  accountSelect : List Event → Except String RpcAccountSelectResponse
  accountCreate : List Event → Except String RpcAccountCreateResponse
  walletCreateSession : List Event → Except String RpcWalletCreateSessionResponse
  accountLocalLinkCreateApp : List Event → Except String RpcAccountLocalLinkCreateAppResponse
  accountStop : List Event → Except String RpcAccountStopResponse
  newRequest : String → Bool
  httpDo : List Event → HttpRound
  walletAccountAt : String → Nat → Except String String
  walletDeriveFromAccountMasterNode : String → Except String String

/-- The ways the process is cut short: the reasons for which the script calls
`log.Fatalf`, and `nilPointer`, the runtime panic of a nil dereference: of a nil
response, which `checkPBError` makes unreachable, or of the nil request of
line 305. -/
inductive Fatal where
  | missingRoot
  | dial (err : String)
  | callFailed (pfx err : String)
  | rpcError (pfx : String) (code : Int) (desc : String)
  | noIdentity
  | accountNil
  | emptyAppKey
  | deriveMnemonic (err : String)
  | deriveAccountKey (err : String)
  | noSessionMaterial
  | emptyToken
  | nilPointer
  deriving DecidableEq, Repr

/-- The lines written to standard output. -/
inductive Line where
  | walletCreated
  | mnemonic (m : String)
  | accountKey (k : String)
  | walletRecovered
  | accountSelected (id : String)
  | accountCreated (id : String)
  | ready
  | accountID (id : String)
  | listenAddress (addr : String)
  | bearerToken (appKey : String)
  | example (appKey addr : String)
  | spacesHeader (n : Nat)
  | space (name id : String)
  | notReady (wait : Int)
  | stillEmpty (wait : Int) (err : String)
  deriving DecidableEq, Repr

/-! ## The process: state, outcome, primitives -/

/-- The observable state of a run: calls issued, lines printed, clock. -/
structure World where
  trace : List Event
  out : List Line
  now : Nat

/-- How a computation ends: it returns, the process exits through
`log.Fatalf`, or it never returns. -/
inductive Res (α : Type) where
  | ok (a : α) (w : World)
  | fatal (f : Fatal) (w : World)
  | hang (w : World)

def Res.world : Res α → World
  | .ok _ w => w
  | .fatal _ w => w
  | .hang w => w

/-- The exit status of the process: 0 when `main` returns, 2 after a panic, 1
after `log.Fatalf`. -/
def Res.exitCode : Res α → Option Nat
  | .ok _ _ => some 0
  | .fatal .nilPointer _ => some 2
  | .fatal _ _ => some 1
  | .hang _ => none

def Proc (α : Type) : Type := World → Res α

def Proc.pure (a : α) : Proc α := fun w => .ok a w

def Proc.bind (m : Proc α) (f : α → Proc β) : Proc β := fun w =>
  match m w with
  | .ok a w1 => f a w1
  | .fatal e w1 => .fatal e w1
  | .hang w1 => .hang w1

instance : Monad Proc where
  pure := Proc.pure
  bind := Proc.bind

/-- The world after one more call. -/
def World.emit (w : World) (e : Event) : World := { w with trace := w.trace ++ [e] }

/-- The world after one more printed line. -/
def World.print (w : World) (l : Line) : World := { w with out := w.out ++ [l] }

def logFatalf (f : Fatal) : Proc α := fun w => .fatal f w

def println (l : Line) : Proc Unit := fun w => .ok () (w.print l)

def emit (e : Event) : Proc Unit := fun w => .ok () (w.emit e)

/-- Send one request and take the reply of the service. -/
def invoke (call : Rpc) (service : List Event → Except String ρ) : Proc (Except String ρ) :=
  fun w => .ok (service (w.emit (.rpc call)).trace) (w.emit (.rpc call))

/-- The `err` of `resp, err := ...`. -/
def errOf : Except String ρ → Option String
  | .error e => some e
  | .ok _ => none

/-- The `resp` of `resp, err := ...`. -/
def respOf : Except String ρ → Option ρ
  | .error _ => none
  | .ok r => some r

/-- The nil-safe getter `GetCode`. -/
def getCode : Option RpcError → Int
  | some e => e.code
  | none => 0

/-- The nil-safe getter `GetDescription`. -/
def getDescription : Option RpcError → String
  | some e => e.description
  | none => ""

/-! ## The script -/

def extractPBError : PBErr → Int × String × Bool
  | .walletCreate e => (getCode e, getDescription e, true)
  | .walletRecover e => (getCode e, getDescription e, true)
  | .accountSelect e => (getCode e, getDescription e, true)
  | .accountCreate e => (getCode e, getDescription e, true)
  | .accountLocalLinkCreateApp e => (getCode e, getDescription e, true)
  | .initialSetParameters e => (getCode e, getDescription e, true)
  | _ => (0, "", false)

/-- checkPBError handles both transport errors and pb error payloads. -/
def checkPBError (pfx : String) (err : Option String) (pbErr : PBErr) : Proc Unit :=
  match err with
  | some e => logFatalf (.callFailed pfx e)
  | none =>
    match extractPBError pbErr with
    | (code, desc, ok) =>
      if ok && code != 0 then logFatalf (.rpcError pfx code desc) else pure ()

def exitOnRPCError (pfx : String) (err : Option String) (rpcErr : PBErr) : Proc Unit :=
  checkPBError pfx err rpcErr

def sendInitialSetParameters (env : Env) (platform version workdir : String) : Proc Unit := do
  let r ← invoke (.initialSetParameters platform version workdir) env.initialSetParameters
  checkPBError "InitialSetParameters" (errOf r) (.initialSetParameters ((respOf r).bind (·.error)))

def handleWalletCreate (env : Env) (rootPath : String) : Proc (String × String) := do
  let r ← invoke (.walletCreate rootPath) env.walletCreate
  checkPBError "WalletCreate" (errOf r) (.walletCreate ((respOf r).bind (·.error)))
  match r with
  | .error _ => logFatalf .nilPointer
  | .ok resp =>
    println .walletCreated
    println (.mnemonic resp.mnemonic)
    println (.accountKey resp.accountKey)
    pure (resp.mnemonic, resp.accountKey)

def handleWalletRecover (env : Env) (rootPath mnemonic accountKey : String) : Proc Unit := do
  let r ← invoke (.walletRecover rootPath mnemonic accountKey) env.walletRecover
  checkPBError "WalletRecover" (errOf r) (.walletRecover ((respOf r).bind (·.error)))
  println .walletRecovered

def handleAccountSelect (env : Env) (accountID rootPath jsonapiAddr : String) : Proc Unit := do
  let r ← invoke (.accountSelect accountID rootPath jsonapiAddr) env.accountSelect
  checkPBError "AccountSelect" (errOf r) (.accountSelect ((respOf r).bind (·.error)))
  println (.accountSelected accountID)

def handleAccountCreate (env : Env) (_rootPath name jsonapiAddr : String) : Proc String := do
  let r ← invoke (.accountCreate name createProfileIcon jsonapiAddr) env.accountCreate
  checkPBError "AccountCreate" (errOf r) (.accountCreate ((respOf r).bind (·.error)))
  match r with
  | .error _ => logFatalf .nilPointer
  | .ok resp =>
    match resp.account with
    | none => logFatalf .accountNil
    | some id =>
      println (.accountCreated id)
      pure id

def handleCreateApp (env : Env) (appName sessionToken : String) : Proc String := do
  let r ← invoke (.accountLocalLinkCreateApp sessionToken appName .jsonAPI) env.accountLocalLinkCreateApp
  checkPBError "AccountLocalLinkCreateApp" (errOf r)
    (.accountLocalLinkCreateApp ((respOf r).bind (·.error)))
  match r with
  | .error _ => logFatalf .nilPointer
  | .ok resp =>
    if resp.appKey = "" then logFatalf .emptyAppKey
    else pure resp.appKey

/-- The account id is `derivation.Identity.GetPublic().Account()` of the
derivation the library returns; the environment gives that string, or the error. -/
def deriveAccountID (env : Env) (mnemonic accountKey : String) : Proc String := do
  if mnemonic ≠ "" then
    emit (.walletAccountAt mnemonic 0)
    match env.walletAccountAt mnemonic 0 with
    | .error e => logFatalf (.deriveMnemonic e)
    | .ok id => pure id
  else
    emit (.walletDeriveFromAccountMasterNode accountKey)
    match env.walletDeriveFromAccountMasterNode accountKey with
    | .error e => logFatalf (.deriveAccountKey e)
    | .ok id => pure id

def createFullSession (env : Env) (mnemonic accountKey : String) : Proc String := do
  let auth ←
    if accountKey ≠ "" then pure (Auth.accountKey accountKey)
    else if mnemonic ≠ "" then pure (Auth.mnemonic mnemonic)
    else logFatalf .noSessionMaterial
  let r ← invoke (.walletCreateSession auth) env.walletCreateSession
  checkPBError "WalletCreateSession" (errOf r) (.walletCreateSession ((respOf r).bind (·.error)))
  match r with
  | .error _ => logFatalf .nilPointer
  | .ok resp =>
    if resp.token = "" then logFatalf .emptyToken
    else pure resp.token

def handleAccountStop (env : Env) (sessionToken : String) : Proc Unit := do
  let md := if sessionToken ≠ "" then some sessionToken else none
  let r ← invoke (.accountStop md) env.accountStop
  checkPBError "AccountStop" (errOf r) (.accountStop ((respOf r).bind (·.error)))

def spacesURL (jsonapiAddr : String) : String := "http://" ++ jsonapiAddr ++ "/v1/spaces"

/-- The test of lines 307-309: the request succeeded with status 200, the body
decoded, and the decoded collection is not empty. -/
def readySpaces : HttpOutcome → Option (List Space)
  | .nilRequest => none
  | .transportError _ => none
  | .response statusCode body =>
    if statusCode = 200 then
      match body with
      | some data => if data.length > 0 then some data else none
      | none => none
    else none

/-- How the loop is left: by one of its two `return`s, or by the panic on a
nil request. -/
inductive PollResult where
  | returned (r : Except String (List Space))
  | panicked

/-- How a poll ends: how the loop is left, how many requests it sent, and the
clock then. -/
structure PollEnd where
  result : PollResult
  requests : Nat
  now : Nat

/-- The `for` loop of `waitAndListSpaces`, entered for the request numbered `n`
at clock `now`; `steps n` is what the environment plays for that request. The
first argument bounds the number of iterations; `none` is a loop still running
when the bound is used up. -/
def pollLoop (steps : Nat → HttpStep) (deadline : Int) : Nat → Nat → Nat → Option PollEnd
  | 0, _, _ => none
  | fuel + 1, n, now =>
    if (steps n).outcome = .nilRequest then
      some { result := .panicked, requests := n, now := now }
    else
      match readySpaces (steps n).outcome with
      | some data =>
        some { result := .returned (.ok data), requests := n + 1, now := now + (steps n).reqDur }
      | none =>
        if ((now + (steps n).reqDur : Nat) : Int) > deadline then
          some { result := .returned (.error "spaces still empty or unavailable"),
                 requests := n + 1, now := now + (steps n).reqDur }
        else
          pollLoop steps deadline fuel (n + 1)
            (now + (steps n).reqDur + (pollInterval + (steps n).sleepExtra))

/-- Iterations that always suffice for a wait budget: every iteration but the
last sleeps at least `pollInterval`. -/
def pollFuel (wait : Int) : Nat := (wait / pollInterval).toNat + 2

/-- The reply to a request that was sent, as the iteration meets it. -/
def HttpReply.toOutcome : HttpReply → HttpOutcome
  | .transportError msg => .transportError msg
  | .response statusCode body => .response statusCode body

/-- The iterations of a poll that starts in world `w`. Where `http.NewRequest`
builds a request from the URL, iteration `n` meets the answer of the
environment to the request that follows `n` earlier ones of the same poll;
where it does not, every iteration meets the nil request. -/
def pollSteps (env : Env) (jsonapiAddr appKey : String) (w : World) : Nat → HttpStep :=
  fun n =>
    if env.newRequest (spacesURL jsonapiAddr) = true then
      { outcome := (env.httpDo (w.trace ++
          List.replicate (n + 1)
            (.httpGet (spacesURL jsonapiAddr) ("Bearer " ++ appKey)))).outcome.toOutcome,
        reqDur := (env.httpDo (w.trace ++
          List.replicate (n + 1)
            (.httpGet (spacesURL jsonapiAddr) ("Bearer " ++ appKey)))).reqDur,
        sleepExtra := (env.httpDo (w.trace ++
          List.replicate (n + 1)
            (.httpGet (spacesURL jsonapiAddr) ("Bearer " ++ appKey)))).sleepExtra }
    else { outcome := .nilRequest, reqDur := 0, sleepExtra := 0 }

def waitAndListSpaces (env : Env) (jsonapiAddr appKey : String) (wait : Int) :
    Proc (Except String (List Space)) := fun w =>
  match pollLoop (pollSteps env jsonapiAddr appKey w) (w.now + wait) (pollFuel wait) 0 w.now with
  | none => .hang w
  | some e =>
    match e.result with
    | .returned r =>
      .ok r
        { w with
          trace := w.trace ++
            List.replicate e.requests (.httpGet (spacesURL jsonapiAddr) ("Bearer " ++ appKey)),
          now := e.now }
    | .panicked =>
      .fatal .nilPointer
        { w with
          trace := w.trace ++
            List.replicate e.requests (.httpGet (spacesURL jsonapiAddr) ("Bearer " ++ appKey)),
          now := e.now }

def printSpaces (spaces : List Space) : Proc Unit := fun w =>
  .ok () { w with out := w.out ++ Line.spacesHeader spaces.length ::
                      spaces.map (fun s => Line.space s.name s.id) }

/-- The variables of `main` that the closure `bootstrap` captures and assigns. -/
structure Vars where
  mnemonic : String
  accountKey : String
  accountID : String
  deriving DecidableEq, Repr

/-- What the closure `bootstrap` leaves behind: the captured variables
(`mnemonic`, `accountKey`, `accountID`) and the two values it returns. -/
structure Boot where
  mnemonic : String
  accountKey : String
  accountID : String
  appKey : String
  sessionToken : String
  deriving DecidableEq, Repr

/-- The closure `bootstrap` of `main`. -/
def bootstrap (env : Env) (flags : Flags) : Proc Boot := do
  let vars : Vars ←
    if flags.createNewAcc then do
      let wallet ← handleWalletCreate env flags.rootPath
      let accountID ← handleAccountCreate env flags.rootPath flags.accountName flags.jsonapiAddr
      pure ({ mnemonic := wallet.1, accountKey := wallet.2, accountID := accountID } : Vars)
    else do
      if flags.mnemonic = "" ∧ flags.accountKey = "" then logFatalf .noIdentity
      handleWalletRecover env flags.rootPath flags.mnemonic flags.accountKey
      let accountID ←
        if flags.accountID = "" then deriveAccountID env flags.mnemonic flags.accountKey
        else pure flags.accountID
      handleAccountSelect env accountID flags.rootPath flags.jsonapiAddr
      pure ({ mnemonic := flags.mnemonic, accountKey := flags.accountKey,
              accountID := accountID } : Vars)
  let sessionToken ← createFullSession env vars.mnemonic vars.accountKey
  let appKey ← handleCreateApp env flags.appName sessionToken
  pure { mnemonic := vars.mnemonic, accountKey := vars.accountKey, accountID := vars.accountID,
         appKey := appKey, sessionToken := sessionToken }

/-- The new credentials a restart returns: lines 117 and 118 of `main`. -/
structure Renewed where
  sessionToken : String
  appKey : String
  deriving DecidableEq, Repr

/-- Lines 112-118 of `main`: the restart after a first poll that failed. -/
def restart (env : Env) (flags : Flags) (b : Boot) : Proc Renewed := do
  println (.notReady flags.waitSpaces)
  handleAccountStop env b.sessionToken
  handleAccountSelect env b.accountID flags.rootPath flags.jsonapiAddr
  let sessionToken ← createFullSession env b.mnemonic b.accountKey
  let appKey ← handleCreateApp env flags.appName sessionToken
  pure { sessionToken := sessionToken, appKey := appKey }

def main (env : Env) (flags : Flags) : Proc Unit := do
  if flags.rootPath = "" then logFatalf .missingRoot
  match env.dial with
  | some e => logFatalf (.dial e)
  | none => pure ()
  sendInitialSetParameters env flags.platform flags.version flags.rootPath
  let b ← bootstrap env flags
  println .ready
  println (.accountID b.accountID)
  println (.listenAddress flags.jsonapiAddr)
  println (.bearerToken b.appKey)
  println (.example b.appKey flags.jsonapiAddr)
  if flags.waitSpaces > 0 then
    let r ← waitAndListSpaces env flags.jsonapiAddr b.appKey flags.waitSpaces
    match r with
    | .ok spaces => printSpaces spaces
    | .error _ =>
      let renewed ← restart env flags b
      let r2 ← waitAndListSpaces env flags.jsonapiAddr renewed.appKey flags.waitSpaces
      match r2 with
      | .ok spaces => printSpaces spaces
      | .error err => println (.stillEmpty flags.waitSpaces err)

/-- The world in which the process starts. -/
def World.initial : World := { trace := [], out := [], now := 0 }

/-- A run of the process. -/
def run (env : Env) (flags : Flags) : Res Unit := main env flags World.initial

/-! ## Definitions used to state the properties -/

/-- The `switch` of `createFullSession`: the credential put in the request,
`none` where the source takes the fatal default branch. -/
def sessionAuth (mnemonic accountKey : String) : Option Auth :=
  if accountKey ≠ "" then some (.accountKey accountKey)
  else if mnemonic ≠ "" then some (.mnemonic mnemonic)
  else none

/-- The clock at which request `i` of a poll that began at `start` is sent. -/
def clockAt (steps : Nat → HttpStep) (start : Nat) : Nat → Nat
  | 0 => start
  | i + 1 => clockAt steps start i + (steps i).reqDur + (pollInterval + (steps i).sleepExtra)

/-- The clock at the deadline check that follows request `i`. -/
def checkAt (steps : Nat → HttpStep) (start : Nat) (i : Nat) : Nat :=
  clockAt steps start i + (steps i).reqDur

/-- The world a poll leaves behind. -/
def World.afterPoll (w : World) (jsonapiAddr appKey : String) (e : PollEnd) : World :=
  { w with
    trace := w.trace ++
      List.replicate e.requests (.httpGet (spacesURL jsonapiAddr) ("Bearer " ++ appKey)),
    now := e.now }

/-- The world once the banner of lines 102-106 is printed. -/
def World.announce (w : World) (flags : Flags) (b : Boot) : World :=
  ((((w.print .ready).print (.accountID b.accountID)).print (.listenAddress flags.jsonapiAddr)).print
    (.bearerToken b.appKey)).print (.example b.appKey flags.jsonapiAddr)

/-- Lines 95-97 of `main`, the end of `bootstrap` in both modes. -/
def authorize (env : Env) (flags : Flags) (vars : Vars) : Proc Boot := do
  let sessionToken ← createFullSession env vars.mnemonic vars.accountKey
  let appKey ← handleCreateApp env flags.appName sessionToken
  pure { mnemonic := vars.mnemonic, accountKey := vars.accountKey, accountID := vars.accountID,
         appKey := appKey, sessionToken := sessionToken }

/-- Lines 108-125 of `main`: the poll, and the restart with its second poll. -/
def awaitSpaces (env : Env) (flags : Flags) (b : Boot) : Proc Unit := do
  if flags.waitSpaces > 0 then
    let r ← waitAndListSpaces env flags.jsonapiAddr b.appKey flags.waitSpaces
    match r with
    | .ok spaces => printSpaces spaces
    | .error _ =>
      let renewed ← restart env flags b
      let r2 ← waitAndListSpaces env flags.jsonapiAddr renewed.appKey flags.waitSpaces
      match r2 with
      | .ok spaces => printSpaces spaces
      | .error err => println (.stillEmpty flags.waitSpaces err)

/-- The computation only appends to the trace and to the output, and every
call it appends satisfies `P`. -/
def Emits (P : Event → Prop) (m : Proc α) : Prop :=
  ∀ w, ∃ t o, (m w).world.trace = w.trace ++ t ∧ (∀ e ∈ t, P e) ∧ (m w).world.out = w.out ++ o

/-- Only gRPC calls. -/
def Event.isRpc : Event → Prop
  | .rpc _ => True
  | _ => False

/-- The calls that consume identity material. -/
def Rpc.consumesIdentity : Rpc → Bool
  | .walletRecover _ _ _ => true
  | .accountSelect _ _ _ => true
  | .walletCreateSession _ => true
  | .accountLocalLinkCreateApp _ _ _ => true
  | _ => false

/-- The failure a poll returns. -/
def pollFailure : Except String (List Space) := .error "spaces still empty or unavailable"

/-- The five calls of a bootstrap in create mode. -/
def createCalls (flags : Flags) (auth : Auth) (token : String) : List Event :=
  [.rpc (.initialSetParameters flags.platform flags.version flags.rootPath),
   .rpc (.walletCreate flags.rootPath),
   .rpc (.accountCreate flags.accountName 0 flags.jsonapiAddr),
   .rpc (.walletCreateSession auth),
   .rpc (.accountLocalLinkCreateApp token flags.appName .jsonAPI)]

/-- The lines a bootstrap in create mode prints, the banner included. -/
def createLines (flags : Flags) (mnemonic accountKey accountID appKey : String) : List Line :=
  [.walletCreated, .mnemonic mnemonic, .accountKey accountKey, .accountCreated accountID,
   .ready, .accountID accountID, .listenAddress flags.jsonapiAddr, .bearerToken appKey,
   .example appKey flags.jsonapiAddr]

/-! ## Mocked environments -/

/-- The mocked service of the end-to-end scenario: every call succeeds, the
wallet is ("abc", "k1"), the account "acc1", the token "s1", the app key "bk1";
the data API answers at once with an empty collection; `http.NewRequest` builds
no request from a URL with a space in it. -/
def mockEnv : Env :=
  { dial := none
    initialSetParameters := fun _ => .ok { error := none }
    walletCreate := fun _ => .ok { error := none, mnemonic := "abc", accountKey := "k1" }
    walletRecover := fun _ => .ok { error := none }
    accountSelect := fun _ => .ok { error := none }
    accountCreate := fun _ => .ok { error := none, account := some "acc1" }
    walletCreateSession := fun _ => .ok { error := none, token := "s1" }
    accountLocalLinkCreateApp := fun _ => .ok { error := none, appKey := "bk1" }
    accountStop := fun _ => .ok { error := none }
    newRequest := fun url => !url.data.contains ' '
    httpDo := fun _ => { outcome := .response 200 (some []), reqDur := 0, sleepExtra := 0 }
    walletAccountAt := fun _ _ => .ok "acc-of-mnemonic"
    walletDeriveFromAccountMasterNode := fun _ => .ok "acc-of-key" }

def mockFlags : Flags :=
  { Flags.defaults with rootPath := "/tmp/x", createNewAcc := true, waitSpaces := 0 }

/-- A service whose AccountStop and WalletCreateSession answer with a non-zero
error code in the payload (1 is `UNKNOWN_ERROR`) and no transport error. -/
def payloadErrorEnv : Env :=
  { mockEnv with
    accountStop := fun _ => .ok { error := some { code := 1, description := "unknown error" } }
    walletCreateSession := fun _ =>
      .ok { error := some { code := 1, description := "unknown error" }, token := "s1" } }

/-- A service whose WalletCreate returns a mnemonic and an empty account key;
every call succeeds. -/
def noKeyEnv : Env :=
  { mockEnv with
    walletCreate := fun _ => .ok { error := none, mnemonic := "abc", accountKey := "" } }

/-- A service on which the AccountStop of the restart fails in transport. -/
def stopFailsEnv : Env :=
  { mockEnv with accountStop := fun _ => .error "connection closed" }

/-- A service that issues "s1" and "bk1" during the bootstrap and "s2" and "bk2"
once an AccountStop is in the history. -/
def renewEnv : Env :=
  { mockEnv with
    walletCreateSession := fun history =>
      .ok { error := none,
            token := if history.any (fun e => e matches .rpc (.accountStop _)) then "s2" else "s1" }
    accountLocalLinkCreateApp := fun history =>
      .ok { error := none,
            appKey := if history.any (fun e => e matches .rpc (.accountStop _)) then "bk2" else "bk1" } }

/-- A data API whose every request runs into the client timeout of ten seconds. -/
def slowEnv : Env :=
  { mockEnv with
    httpDo := fun _ =>
      { outcome := .transportError "context deadline exceeded", reqDur := httpClientTimeout,
        sleepExtra := 0 } }

/-- A data API that answers at once with an empty collection, on a machine
whose every sleep overshoots by two seconds. -/
def oversleepEnv : Env :=
  { mockEnv with
    httpDo := fun _ =>
      { outcome := .response 200 (some []), reqDur := 0, sleepExtra := 2 * second } }

/-- A data API that fails four times in the four ways there are, then serves
one space; each request takes a second. The history of a poll started in the
initial world holds one event per request sent. -/
def flakyEnv : Env :=
  { mockEnv with
    httpDo := fun history =>
      { outcome :=
          match history.length with
          | 1 => .transportError "connection refused"
          | 2 => .response 503 none
          | 3 => .response 200 none
          | 4 => .response 200 (some [])
          | _ => .response 200 (some [{ id := "sp1", name := "Home" }]),
        reqDur := second, sleepExtra := 0 } }

/-- The flags of the restart scenario: create mode, a budget of one second. -/
def retryFlags : Flags := { mockFlags with waitSpaces := 1 * second }

/-- What the bootstrap of the restart scenario returns. -/
def retryBoot : Boot :=
  { mnemonic := "abc", accountKey := "k1", accountID := "acc1", appKey := "bk1",
    sessionToken := "s1" }

/-- The world of the restart scenario when the bootstrap has returned. -/
def retryBooted : World :=
  { trace := createCalls retryFlags (.accountKey "k1") "s1",
    out := [.walletCreated, .mnemonic "abc", .accountKey "k1", .accountCreated "acc1"],
    now := 0 }

/-- The world of the restart scenario when the first poll has failed: two
requests, five seconds. -/
def retryPolled : World :=
  { trace := createCalls retryFlags (.accountKey "k1") "s1" ++
      List.replicate 2 (.httpGet "http://127.0.0.1:31009/v1/spaces" "Bearer bk1"),
    out := createLines retryFlags "abc" "k1" "acc1" "bk1",
    now := 5 * second }

/-- The world of the restart scenario when the restart has returned, on a
service that issues `token` for the second session. -/
def retryRestarted (token : String) : World :=
  { trace := retryPolled.trace ++
      [.rpc (.accountStop (some "s1")),
       .rpc (.accountSelect "acc1" "/tmp/x" "127.0.0.1:31009"),
       .rpc (.walletCreateSession (.accountKey "k1")),
       .rpc (.accountLocalLinkCreateApp token "jsonapi-cli" .jsonAPI)],
    out := retryPolled.out ++ [.notReady (1 * second), .accountSelected "acc1"],
    now := 5 * second }

/-! ## Reading the monad and the handlers -/

@[simp] theorem World.emit_trace (w : World) (e : Event) : (w.emit e).trace = w.trace ++ [e] := rfl

@[simp] theorem World.emit_out (w : World) (e : Event) : (w.emit e).out = w.out := rfl

@[simp] theorem World.emit_now (w : World) (e : Event) : (w.emit e).now = w.now := rfl

@[simp] theorem World.print_trace (w : World) (l : Line) : (w.print l).trace = w.trace := rfl

@[simp] theorem World.print_out (w : World) (l : Line) : (w.print l).out = w.out ++ [l] := rfl

@[simp] theorem World.print_now (w : World) (l : Line) : (w.print l).now = w.now := rfl

@[simp] theorem pure_run (a : α) (w : World) : (pure a : Proc α) w = .ok a w := rfl

theorem bind_run (m : Proc α) (f : α → Proc β) (w : World) :
    (m >>= f) w =
      match m w with
      | .ok a w1 => f a w1
      | .fatal e w1 => .fatal e w1
      | .hang w1 => .hang w1 := rfl

@[simp] theorem bind_ok (m : Proc α) (f : α → Proc β) (w w1 : World) (a : α)
    (h : m w = .ok a w1) : (m >>= f) w = f a w1 := by
  rw [bind_run, h]

@[simp] theorem bind_fatal (m : Proc α) (f : α → Proc β) (w w1 : World) (e : Fatal)
    (h : m w = .fatal e w1) : (m >>= f) w = .fatal e w1 := by
  rw [bind_run, h]

@[simp] theorem logFatalf_run (f : Fatal) (w : World) : (logFatalf f : Proc α) w = .fatal f w := rfl

@[simp] theorem println_run (l : Line) (w : World) : println l w = .ok () (w.print l) := rfl

@[simp] theorem emit_run (e : Event) (w : World) : emit e w = .ok () (w.emit e) := rfl

/-- The check passes exactly on no transport error and, for the six payloads
`extractPBError` knows, a zero code; it is fatal otherwise. -/
theorem checkPBError_run (pfx : String) (err : Option String) (pbErr : PBErr) (w : World) :
    checkPBError pfx err pbErr w =
      match err with
      | some e => .fatal (.callFailed pfx e) w
      | none =>
        if (extractPBError pbErr).2.2 = true ∧ (extractPBError pbErr).1 ≠ 0 then
          .fatal (.rpcError pfx (extractPBError pbErr).1 (extractPBError pbErr).2.1) w
        else .ok () w := by
  cases err with
  | some e => rfl
  | none =>
    simp only [checkPBError]
    by_cases h : (extractPBError pbErr).2.2 = true ∧ (extractPBError pbErr).1 ≠ 0
    · simp [h]
    · rw [if_neg h]
      simp only [not_and_or, Bool.not_eq_true, ne_eq, not_not] at h
      rcases h with h | h <;> simp [h]

theorem handleAccountSelect_run (env : Env) (id root addr : String) (w : World) :
    handleAccountSelect env id root addr w =
      match env.accountSelect (w.trace ++ [.rpc (.accountSelect id root addr)]) with
      | .error e => .fatal (.callFailed "AccountSelect" e) (w.emit (.rpc (.accountSelect id root addr)))
      | .ok r =>
        if getCode r.error ≠ 0 then
          .fatal (.rpcError "AccountSelect" (getCode r.error) (getDescription r.error))
            (w.emit (.rpc (.accountSelect id root addr)))
        else .ok () ((w.emit (.rpc (.accountSelect id root addr))).print (.accountSelected id)) := by
  simp only [handleAccountSelect, invoke, bind_run, checkPBError_run, World.emit_trace]
  cases env.accountSelect (w.trace ++ [.rpc (.accountSelect id root addr)]) with
  | error e => rfl
  | ok r =>
    simp only [errOf, respOf, Option.bind, extractPBError]
    by_cases h : getCode r.error = 0 <;> simp [h]

theorem sendInitialSetParameters_run (env : Env) (platform version workdir : String) (w : World) :
    sendInitialSetParameters env platform version workdir w =
      match env.initialSetParameters
          (w.trace ++ [.rpc (.initialSetParameters platform version workdir)]) with
      | .error e =>
        .fatal (.callFailed "InitialSetParameters" e)
          (w.emit (.rpc (.initialSetParameters platform version workdir)))
      | .ok r =>
        if getCode r.error ≠ 0 then
          .fatal (.rpcError "InitialSetParameters" (getCode r.error) (getDescription r.error))
            (w.emit (.rpc (.initialSetParameters platform version workdir)))
        else .ok () (w.emit (.rpc (.initialSetParameters platform version workdir))) := by
  simp only [sendInitialSetParameters, invoke, bind_run, checkPBError_run, World.emit_trace]
  cases env.initialSetParameters
      (w.trace ++ [.rpc (.initialSetParameters platform version workdir)]) with
  | error e => rfl
  | ok r =>
    simp only [errOf, respOf, Option.bind, extractPBError]
    by_cases h : getCode r.error = 0 <;> simp [h]

theorem handleWalletCreate_run (env : Env) (root : String) (w : World) :
    handleWalletCreate env root w =
      match env.walletCreate (w.trace ++ [.rpc (.walletCreate root)]) with
      | .error e => .fatal (.callFailed "WalletCreate" e) (w.emit (.rpc (.walletCreate root)))
      | .ok r =>
        if getCode r.error ≠ 0 then
          .fatal (.rpcError "WalletCreate" (getCode r.error) (getDescription r.error))
            (w.emit (.rpc (.walletCreate root)))
        else
          .ok (r.mnemonic, r.accountKey)
            ((((w.emit (.rpc (.walletCreate root))).print .walletCreated).print
              (.mnemonic r.mnemonic)).print (.accountKey r.accountKey)) := by
  simp only [handleWalletCreate, invoke, bind_run, checkPBError_run, World.emit_trace]
  cases env.walletCreate (w.trace ++ [.rpc (.walletCreate root)]) with
  | error e => rfl
  | ok r =>
    simp only [errOf, respOf, Option.bind, extractPBError]
    by_cases h : getCode r.error = 0 <;> simp [h]
    rfl

theorem handleWalletRecover_run (env : Env) (root mnemonic accountKey : String) (w : World) :
    handleWalletRecover env root mnemonic accountKey w =
      match env.walletRecover (w.trace ++ [.rpc (.walletRecover root mnemonic accountKey)]) with
      | .error e =>
        .fatal (.callFailed "WalletRecover" e) (w.emit (.rpc (.walletRecover root mnemonic accountKey)))
      | .ok r =>
        if getCode r.error ≠ 0 then
          .fatal (.rpcError "WalletRecover" (getCode r.error) (getDescription r.error))
            (w.emit (.rpc (.walletRecover root mnemonic accountKey)))
        else
          .ok () ((w.emit (.rpc (.walletRecover root mnemonic accountKey))).print .walletRecovered) := by
  simp only [handleWalletRecover, invoke, bind_run, checkPBError_run, World.emit_trace]
  cases env.walletRecover (w.trace ++ [.rpc (.walletRecover root mnemonic accountKey)]) with
  | error e => rfl
  | ok r =>
    simp only [errOf, respOf, Option.bind, extractPBError]
    by_cases h : getCode r.error = 0 <;> simp [h]

theorem handleAccountCreate_run (env : Env) (root name addr : String) (w : World) :
    handleAccountCreate env root name addr w =
      match env.accountCreate (w.trace ++ [.rpc (.accountCreate name createProfileIcon addr)]) with
      | .error e =>
        .fatal (.callFailed "AccountCreate" e) (w.emit (.rpc (.accountCreate name createProfileIcon addr)))
      | .ok r =>
        if getCode r.error ≠ 0 then
          .fatal (.rpcError "AccountCreate" (getCode r.error) (getDescription r.error))
            (w.emit (.rpc (.accountCreate name createProfileIcon addr)))
        else
          match r.account with
          | none => .fatal .accountNil (w.emit (.rpc (.accountCreate name createProfileIcon addr)))
          | some id =>
            .ok id ((w.emit (.rpc (.accountCreate name createProfileIcon addr))).print
              (.accountCreated id)) := by
  simp only [handleAccountCreate, invoke, bind_run, checkPBError_run, World.emit_trace]
  cases env.accountCreate (w.trace ++ [.rpc (.accountCreate name createProfileIcon addr)]) with
  | error e => rfl
  | ok r =>
    simp only [errOf, respOf, Option.bind, extractPBError]
    by_cases h : getCode r.error = 0 <;> simp [h]
    cases r.account <;> rfl

theorem handleCreateApp_run (env : Env) (appName token : String) (w : World) :
    handleCreateApp env appName token w =
      match env.accountLocalLinkCreateApp
          (w.trace ++ [.rpc (.accountLocalLinkCreateApp token appName .jsonAPI)]) with
      | .error e =>
        .fatal (.callFailed "AccountLocalLinkCreateApp" e)
          (w.emit (.rpc (.accountLocalLinkCreateApp token appName .jsonAPI)))
      | .ok r =>
        if getCode r.error ≠ 0 then
          .fatal (.rpcError "AccountLocalLinkCreateApp" (getCode r.error) (getDescription r.error))
            (w.emit (.rpc (.accountLocalLinkCreateApp token appName .jsonAPI)))
        else if r.appKey = "" then
          .fatal .emptyAppKey (w.emit (.rpc (.accountLocalLinkCreateApp token appName .jsonAPI)))
        else .ok r.appKey (w.emit (.rpc (.accountLocalLinkCreateApp token appName .jsonAPI))) := by
  simp only [handleCreateApp, invoke, bind_run, checkPBError_run, World.emit_trace]
  cases env.accountLocalLinkCreateApp
      (w.trace ++ [.rpc (.accountLocalLinkCreateApp token appName .jsonAPI)]) with
  | error e => rfl
  | ok r =>
    simp only [errOf, respOf, Option.bind, extractPBError]
    by_cases h : getCode r.error = 0 <;> simp [h]
    by_cases h2 : r.appKey = "" <;> simp [h2]

/-- The payload error of WalletCreateSession is of a type `extractPBError` does
not list, so only a transport error or an empty token stops the session. -/
theorem createFullSession_run (env : Env) (mnemonic accountKey : String) (w : World) :
    createFullSession env mnemonic accountKey w =
      match sessionAuth mnemonic accountKey with
      | none => .fatal .noSessionMaterial w
      | some auth =>
        match env.walletCreateSession (w.trace ++ [.rpc (.walletCreateSession auth)]) with
        | .error e => .fatal (.callFailed "WalletCreateSession" e) (w.emit (.rpc (.walletCreateSession auth)))
        | .ok r =>
          if r.token = "" then .fatal .emptyToken (w.emit (.rpc (.walletCreateSession auth)))
          else .ok r.token (w.emit (.rpc (.walletCreateSession auth))) := by
  have key : ∀ auth : Auth,
      ((invoke (.walletCreateSession auth) env.walletCreateSession >>= fun r =>
        checkPBError "WalletCreateSession" (errOf r)
          (.walletCreateSession ((respOf r).bind (·.error))) >>= fun _ =>
        match r with
        | .error _ => logFatalf .nilPointer
        | .ok resp => if resp.token = "" then logFatalf .emptyToken else pure resp.token) w) =
      (match env.walletCreateSession (w.trace ++ [.rpc (.walletCreateSession auth)]) with
        | .error e => .fatal (.callFailed "WalletCreateSession" e) (w.emit (.rpc (.walletCreateSession auth)))
        | .ok r =>
          if r.token = "" then .fatal .emptyToken (w.emit (.rpc (.walletCreateSession auth)))
          else .ok r.token (w.emit (.rpc (.walletCreateSession auth)))) := by
    intro auth
    simp only [invoke, bind_run, checkPBError_run, World.emit_trace]
    cases env.walletCreateSession (w.trace ++ [.rpc (.walletCreateSession auth)]) with
    | error e => rfl
    | ok r =>
      simp only [errOf, respOf, Option.bind, extractPBError]
      by_cases h2 : r.token = "" <;> simp [h2]
  unfold createFullSession sessionAuth
  by_cases hk : accountKey = ""
  · by_cases hm : mnemonic = ""
    · simp [hk, hm, bind_run]
    · simp only [hk, hm, ne_eq, not_true_eq_false, not_false_eq_true, if_true, if_false]
      rw [bind_run]
      exact key _
  · simp only [hk, ne_eq, not_false_eq_true, if_true]
    rw [bind_run]
    exact key _

theorem handleAccountStop_run (env : Env) (token : String) (w : World) :
    handleAccountStop env token w =
      match env.accountStop
          (w.trace ++ [.rpc (.accountStop (if token ≠ "" then some token else none))]) with
      | .error e =>
        .fatal (.callFailed "AccountStop" e)
          (w.emit (.rpc (.accountStop (if token ≠ "" then some token else none))))
      | .ok _ => .ok () (w.emit (.rpc (.accountStop (if token ≠ "" then some token else none)))) := by
  simp only [handleAccountStop, invoke, bind_run, checkPBError_run, World.emit_trace]
  cases env.accountStop
      (w.trace ++ [.rpc (.accountStop (if token ≠ "" then some token else none))]) with
  | error e => rfl
  | ok r => simp [errOf, extractPBError]

theorem deriveAccountID_run (env : Env) (mnemonic accountKey : String) (w : World) :
    deriveAccountID env mnemonic accountKey w =
      if mnemonic ≠ "" then
        match env.walletAccountAt mnemonic 0 with
        | .error e => .fatal (.deriveMnemonic e) (w.emit (.walletAccountAt mnemonic 0))
        | .ok id => .ok id (w.emit (.walletAccountAt mnemonic 0))
      else
        match env.walletDeriveFromAccountMasterNode accountKey with
        | .error e =>
          .fatal (.deriveAccountKey e) (w.emit (.walletDeriveFromAccountMasterNode accountKey))
        | .ok id => .ok id (w.emit (.walletDeriveFromAccountMasterNode accountKey)) := by
  unfold deriveAccountID
  by_cases hm : mnemonic = ""
  · simp only [hm, ne_eq, not_true_eq_false, if_false, bind_run, emit_run]
    cases env.walletDeriveFromAccountMasterNode accountKey <;> rfl
  · simp only [hm, ne_eq, not_false_eq_true, if_true, bind_run, emit_run]
    cases env.walletAccountAt mnemonic 0 <;> rfl

/-! ## The poll loop -/

theorem pollInterval_eq : pollInterval = 5000000000 := by decide

theorem clockAt_ge (steps : Nat → HttpStep) (start : Nat) (i : Nat) :
    start + i * pollInterval ≤ clockAt steps start i := by
  induction i with
  | zero => simp [clockAt]
  | succ i ih => simp only [clockAt, Nat.succ_mul]; omega

/-- One iteration of the loop on a request that was built. -/
theorem pollLoop_succ (steps : Nat → HttpStep) (deadline : Int) (fuel n now : Nat)
    (h : (steps n).outcome ≠ .nilRequest) :
    pollLoop steps deadline (fuel + 1) n now =
      match readySpaces (steps n).outcome with
      | some data =>
        some { result := .returned (.ok data), requests := n + 1, now := now + (steps n).reqDur }
      | none =>
        if ((now + (steps n).reqDur : Nat) : Int) > deadline then
          some { result := .returned (.error "spaces still empty or unavailable"),
                 requests := n + 1, now := now + (steps n).reqDur }
        else
          pollLoop steps deadline fuel (n + 1)
            (now + (steps n).reqDur + (pollInterval + (steps n).sleepExtra)) := by
  rw [pollLoop, if_neg h]

/-- One iteration of the loop on a nil request: the panic, nothing sent. -/
theorem pollLoop_nil (steps : Nat → HttpStep) (deadline : Int) (fuel n now : Nat)
    (h : (steps n).outcome = .nilRequest) :
    pollLoop steps deadline (fuel + 1) n now =
      some { result := .panicked, requests := n, now := now } := by
  rw [pollLoop, if_pos h]

/-- The loop is left: with `f + 1` iterations allowed and the deadline less
than `f` sleeps away, it ends within the bound, whatever the endpoint does. -/
theorem pollLoop_returns (steps : Nat → HttpStep) (deadline : Int) :
    ∀ (f n now : Nat), deadline < (now : Int) + f * pollInterval →
      ∃ e, pollLoop steps deadline (f + 1) n now = some e := by
  intro f
  induction f with
  | zero =>
    intro n now h
    by_cases hnil : (steps n).outcome = .nilRequest
    · exact ⟨_, pollLoop_nil _ _ _ _ _ hnil⟩
    · rw [pollLoop_succ _ _ _ _ _ hnil]
      cases readySpaces (steps n).outcome with
      | some data => exact ⟨_, rfl⟩
      | none =>
        have : ((now + (steps n).reqDur : Nat) : Int) > deadline := by push_cast; omega
        simp only [this, if_true]
        exact ⟨_, rfl⟩
  | succ f ih =>
    intro n now h
    by_cases hnil : (steps n).outcome = .nilRequest
    · exact ⟨_, pollLoop_nil _ _ _ _ _ hnil⟩
    · rw [pollLoop_succ _ _ _ _ _ hnil]
      cases readySpaces (steps n).outcome with
      | some data => exact ⟨_, rfl⟩
      | none =>
        by_cases hc : ((now + (steps n).reqDur : Nat) : Int) > deadline
        · simp only [hc, if_true]
          exact ⟨_, rfl⟩
        · simp only [hc, if_false]
          apply ih
          push_cast
          push_cast at h
          have := pollInterval_eq
          nlinarith

/-- The bound on iterations is immaterial: a loop that ends within a bound ends
the same way within every larger one. -/
theorem pollLoop_mono (steps : Nat → HttpStep) (deadline : Int) :
    ∀ (f n now : Nat) (e : PollEnd), pollLoop steps deadline f n now = some e →
      ∀ g, f ≤ g → pollLoop steps deadline g n now = some e := by
  intro f
  induction f with
  | zero =>
    intro n now e h
    cases h
  | succ f ih =>
    intro n now e h g hg
    obtain ⟨g, rfl⟩ : ∃ k, g = k + 1 := ⟨g - 1, by omega⟩
    by_cases hnil : (steps n).outcome = .nilRequest
    · rw [pollLoop_nil _ _ _ _ _ hnil] at h ⊢
      exact h
    · rw [pollLoop_succ _ _ _ _ _ hnil] at h ⊢
      cases hr : readySpaces (steps n).outcome with
      | some data =>
        rw [hr] at h
        exact h
      | none =>
        rw [hr] at h
        dsimp only at h ⊢
        by_cases hc : ((now + (steps n).reqDur : Nat) : Int) > deadline
        · rw [if_pos hc] at h ⊢
          exact h
        · rw [if_neg hc] at h ⊢
          exact ih _ _ _ h g (by omega)

/-- A loop that meets no nil request is left by a `return`. -/
theorem pollLoop_returned (steps : Nat → HttpStep) (deadline : Int)
    (hreq : ∀ j, (steps j).outcome ≠ .nilRequest) :
    ∀ (f n now : Nat) (e : PollEnd), pollLoop steps deadline f n now = some e →
      ∃ r, e.result = .returned r ∧ n < e.requests := by
  intro f
  induction f with
  | zero =>
    intro n now e h
    cases h
  | succ f ih =>
    intro n now e h
    rw [pollLoop_succ _ _ _ _ _ (hreq n)] at h
    cases hr : readySpaces (steps n).outcome with
    | some data =>
      rw [hr] at h
      cases h
      exact ⟨_, rfl, Nat.lt_succ_self n⟩
    | none =>
      rw [hr] at h
      dsimp only at h
      by_cases hc : ((now + (steps n).reqDur : Nat) : Int) > deadline
      · rw [if_pos hc] at h
        cases h
        exact ⟨_, rfl, Nat.lt_succ_self n⟩
      · rw [if_neg hc] at h
        obtain ⟨r, h1, h2⟩ := ih _ _ _ h
        exact ⟨r, h1, Nat.lt_of_succ_lt h2⟩

theorem pollFuel_spec (now : Nat) (wait : Int) :
    (now : Int) + wait < (now : Int) + ((pollFuel wait - 1 : Nat) : Int) * pollInterval := by
  have h := pollInterval_eq
  unfold pollFuel
  rw [h]
  omega

theorem readySpaces_eq_some (o : HttpOutcome) (data : List Space) :
    readySpaces o = some data ↔ o = .response 200 (some data) ∧ data ≠ [] := by
  cases o with
  | nilRequest => simp [readySpaces]
  | transportError msg => simp [readySpaces]
  | response statusCode body =>
    cases body with
    | none => simp [readySpaces]
    | some d =>
      by_cases hs : statusCode = 200
      · by_cases hd : d = []
        · subst hd
          simp [readySpaces, hs]
        · have : d.length > 0 := List.length_pos.mpr hd
          simp only [readySpaces, hs, if_true, this]
          constructor
          · intro h
            have : d = data := by simpa using h
            subst this
            exact ⟨rfl, hd⟩
          · intro h
            have : d = data := by simpa using h.1
            subst this
            rfl
      · simp [readySpaces, hs]

theorem readySpaces_ne_nil (o : HttpOutcome) (data : List Space)
    (h : readySpaces o = some data) : o ≠ .nilRequest := by
  intro ho
  rw [ho] at h
  cases h

/-- A poll whose request `n + k` is the first ready one, with no deadline check
failing before it, returns that collection after `n + k + 1` requests. -/
theorem pollLoop_ready (steps : Nat → HttpStep) (deadline : Int) (start : Nat) (data : List Space) :
    ∀ (k n fuel : Nat), k < fuel →
      (∀ j, n ≤ j → j < n + k →
        (steps j).outcome ≠ .nilRequest ∧ readySpaces (steps j).outcome = none ∧
          ((checkAt steps start j : Nat) : Int) ≤ deadline) →
      readySpaces (steps (n + k)).outcome = some data →
      pollLoop steps deadline fuel n (clockAt steps start n) =
        some { result := .returned (.ok data), requests := n + k + 1,
               now := checkAt steps start (n + k) } := by
  intro k
  induction k with
  | zero =>
    intro n fuel hf _ hr
    obtain ⟨f, rfl⟩ : ∃ f, fuel = f + 1 := ⟨fuel - 1, by omega⟩
    simp only [Nat.add_zero] at hr ⊢
    rw [pollLoop_succ _ _ _ _ _ (readySpaces_ne_nil _ _ hr), hr]
    rfl
  | succ k ih =>
    intro n fuel hf hearly hr
    obtain ⟨f, rfl⟩ : ∃ f, fuel = f + 1 := ⟨fuel - 1, by omega⟩
    have h0 := hearly n (Nat.le_refl n) (by omega)
    rw [pollLoop_succ _ _ _ _ _ h0.1, h0.2.1]
    have hc : ¬ (((clockAt steps start n + (steps n).reqDur : Nat) : Int) > deadline) := by
      have := h0.2.2
      unfold checkAt at this
      omega
    simp only [hc, if_false]
    have hstep : clockAt steps start n + (steps n).reqDur + (pollInterval + (steps n).sleepExtra) =
        clockAt steps start (n + 1) := rfl
    rw [hstep]
    have e1 : n + (k + 1) = (n + 1) + k := by omega
    rw [e1] at hr ⊢
    exact ih (n + 1) f (by omega) (fun j h1 h2 => hearly j (by omega) (by omega)) hr

/-- A poll that is never ready ends in the failure, at the first deadline check
that finds the deadline passed. -/
theorem pollLoop_notReady (steps : Nat → HttpStep) (deadline : Int) (start : Nat)
    (hreq : ∀ j, (steps j).outcome ≠ .nilRequest)
    (hnever : ∀ j, readySpaces (steps j).outcome = none) :
    ∀ (f n : Nat), deadline < ((clockAt steps start n : Nat) : Int) + f * pollInterval →
      ∃ k, n ≤ k ∧
        pollLoop steps deadline (f + 1) n (clockAt steps start n) =
          some { result := .returned (.error "spaces still empty or unavailable"),
                 requests := k + 1, now := checkAt steps start k } ∧
        deadline < ((checkAt steps start k : Nat) : Int) ∧
        ∀ j, n ≤ j → j < k → ((checkAt steps start j : Nat) : Int) ≤ deadline := by
  intro f
  induction f with
  | zero =>
    intro n h
    refine ⟨n, Nat.le_refl n, ?_, ?_, fun j h1 h2 => absurd h2 (by omega)⟩
    · rw [pollLoop_succ _ _ _ _ _ (hreq n), hnever n]
      have : ((clockAt steps start n + (steps n).reqDur : Nat) : Int) > deadline := by
        push_cast; omega
      simp only [this, if_true]
      rfl
    · unfold checkAt; push_cast; omega
  | succ f ih =>
    intro n h
    by_cases hc : ((clockAt steps start n + (steps n).reqDur : Nat) : Int) > deadline
    · refine ⟨n, Nat.le_refl n, ?_, hc, fun j h1 h2 => absurd h2 (by omega)⟩
      rw [pollLoop_succ _ _ _ _ _ (hreq n), hnever n]
      simp only [hc, if_true]
      rfl
    · have hnext : deadline < ((clockAt steps start (n + 1) : Nat) : Int) + f * pollInterval := by
        have hp := pollInterval_eq
        simp only [clockAt]
        push_cast
        push_cast at h
        nlinarith
      obtain ⟨k, hk, hrun, hlate, hearly⟩ := ih (n + 1) hnext
      refine ⟨k, by omega, ?_, hlate, ?_⟩
      · rw [pollLoop_succ _ _ _ _ _ (hreq n), hnever n]
        simp only [hc, if_false]
        exact hrun
      · intro j h1 h2
        by_cases hj : j = n
        · subst hj
          unfold checkAt
          omega
        · exact hearly j (by omega) h2

theorem waitAndListSpaces_run (env : Env) (addr key : String) (wait : Int) (w : World) :
    waitAndListSpaces env addr key wait w =
      match pollLoop (pollSteps env addr key w) (w.now + wait) (pollFuel wait) 0 w.now with
      | none => .hang w
      | some e =>
        match e.result with
        | .returned r => .ok r (w.afterPoll addr key e)
        | .panicked => .fatal .nilPointer (w.afterPoll addr key e) := rfl

/-- With a request built from the URL no iteration meets the nil request. -/
theorem pollSteps_request (env : Env) (addr key : String) (w : World)
    (hurl : env.newRequest (spacesURL addr) = true) (j : Nat) :
    (pollSteps env addr key w j).outcome ≠ .nilRequest := by
  simp only [pollSteps, hurl, if_true]
  cases (env.httpDo (w.trace ++
    List.replicate (j + 1) (.httpGet (spacesURL addr) ("Bearer " ++ key)))).outcome <;>
    simp [HttpReply.toOutcome]

/-- With no request built from the URL every iteration meets the nil request. -/
theorem pollSteps_nilRequest (env : Env) (addr key : String) (w : World)
    (hurl : env.newRequest (spacesURL addr) = false) (j : Nat) :
    (pollSteps env addr key w j).outcome = .nilRequest := by
  simp [pollSteps, hurl]

/-- The poll never hangs: for every endpoint `waitAndListSpaces` returns or panics. -/
theorem waitAndListSpaces_ends (env : Env) (addr key : String) (wait : Int) (w : World) :
    ∀ w1, waitAndListSpaces env addr key wait w ≠ .hang w1 := by
  intro w1
  obtain ⟨e, he⟩ := pollLoop_returns (pollSteps env addr key w) (w.now + wait)
    (pollFuel wait - 1) 0 w.now (pollFuel_spec w.now wait)
  have hf : pollFuel wait - 1 + 1 = pollFuel wait := by unfold pollFuel; omega
  rw [hf] at he
  rw [waitAndListSpaces_run, he]
  dsimp only
  cases e.result <;> simp

/-- With a request built from the URL, `waitAndListSpaces` returns for every endpoint. -/
theorem waitAndListSpaces_returns (env : Env) (addr key : String) (wait : Int) (w : World)
    (hurl : env.newRequest (spacesURL addr) = true) :
    ∃ r w1, waitAndListSpaces env addr key wait w = .ok r w1 := by
  obtain ⟨e, he⟩ := pollLoop_returns (pollSteps env addr key w) (w.now + wait)
    (pollFuel wait - 1) 0 w.now (pollFuel_spec w.now wait)
  have hf : pollFuel wait - 1 + 1 = pollFuel wait := by unfold pollFuel; omega
  rw [hf] at he
  obtain ⟨r, hr, _⟩ := pollLoop_returned _ _ (pollSteps_request env addr key w hurl) _ _ _ _ he
  exact ⟨r, w.afterPoll addr key e, by rw [waitAndListSpaces_run, he]; dsimp only; rw [hr]⟩

/-- With no request built from the URL, `waitAndListSpaces` panics at once:
line 305 dereferences the nil request before anything is sent. -/
theorem waitAndListSpaces_nilRequest (env : Env) (addr key : String) (wait : Int) (w : World)
    (hurl : env.newRequest (spacesURL addr) = false) :
    waitAndListSpaces env addr key wait w = .fatal .nilPointer w := by
  have hf : pollFuel wait = (pollFuel wait - 1) + 1 := by unfold pollFuel; omega
  rw [waitAndListSpaces_run, hf,
    pollLoop_nil _ _ _ _ _ (pollSteps_nilRequest env addr key w hurl 0)]
  simp [World.afterPoll]

/-- A poll that returns was given a URL from which a request is built. -/
theorem waitAndListSpaces_ok_url {env : Env} {addr key : String} {wait : Int} {w w1 : World}
    {r : Except String (List Space)} (h : waitAndListSpaces env addr key wait w = .ok r w1) :
    env.newRequest (spacesURL addr) = true := by
  cases hurl : env.newRequest (spacesURL addr) with
  | true => rfl
  | false =>
    rw [waitAndListSpaces_nilRequest env addr key wait w hurl] at h
    cases h

/-! ## What a computation adds to the world -/

theorem emits_weaken {P Q : Event → Prop} {m : Proc α} (h : Emits P m) (hpq : ∀ e, P e → Q e) :
    Emits Q m := by
  intro w
  obtain ⟨t, o, h1, h2, h3⟩ := h w
  exact ⟨t, o, h1, fun e he => hpq e (h2 e he), h3⟩

theorem emits_pure (P : Event → Prop) (a : α) : Emits P (pure a : Proc α) :=
  fun w => ⟨[], [], by simp [Res.world], by simp, by simp [Res.world]⟩

theorem emits_logFatalf (P : Event → Prop) (f : Fatal) : Emits P (logFatalf f : Proc α) :=
  fun w => ⟨[], [], by simp [Res.world], by simp, by simp [Res.world]⟩

theorem emits_println (P : Event → Prop) (l : Line) : Emits P (println l) :=
  fun w => ⟨[], [l], by simp [Res.world], by simp, by simp [Res.world]⟩

theorem emits_bind {P : Event → Prop} {m : Proc α} {f : α → Proc β} (hm : Emits P m)
    (hf : ∀ a, Emits P (f a)) : Emits P (m >>= f) := by
  intro w
  obtain ⟨t, o, h1, h2, h3⟩ := hm w
  rw [bind_run]
  cases hmw : m w with
  | ok a w1 =>
    rw [hmw] at h1 h3
    simp only [Res.world] at h1 h3
    obtain ⟨t2, o2, g1, g2, g3⟩ := hf a w1
    refine ⟨t ++ t2, o ++ o2, ?_, ?_, ?_⟩
    · simp only [g1, h1, List.append_assoc]
    · intro e he
      rcases List.mem_append.mp he with he | he
      · exact h2 e he
      · exact g2 e he
    · simp only [g3, h3, List.append_assoc]
  | fatal e w1 =>
    rw [hmw] at h1 h3
    exact ⟨t, o, h1, h2, h3⟩
  | hang w1 =>
    rw [hmw] at h1 h3
    exact ⟨t, o, h1, h2, h3⟩

theorem emits_emit (P : Event → Prop) (e : Event) (h : P e) : Emits P (emit e) :=
  fun w => ⟨[e], [], rfl, by simpa using h, by simp [Res.world]⟩

theorem emits_invoke (P : Event → Prop) (call : Rpc) (service : List Event → Except String ρ)
    (h : P (.rpc call)) : Emits P (invoke call service) :=
  fun w => ⟨[.rpc call], [], rfl, by simpa using h, by simp [Res.world, invoke]⟩

theorem emits_checkPBError (P : Event → Prop) (pfx : String) (err : Option String) (pbErr : PBErr) :
    Emits P (checkPBError pfx err pbErr) := by
  intro w
  rw [checkPBError_run]
  refine ⟨[], [], ?_, by simp, ?_⟩ <;> · split <;> [skip; split] <;> simp [Res.world]

theorem emits_sendInitialSetParameters (env : Env) (platform version workdir : String) :
    Emits Event.isRpc (sendInitialSetParameters env platform version workdir) :=
  emits_bind (emits_invoke Event.isRpc _ _ trivial) fun _ => emits_checkPBError _ _ _ _

theorem emits_handleWalletCreate (env : Env) (root : String) :
    Emits Event.isRpc (handleWalletCreate env root) :=
  emits_bind (emits_invoke Event.isRpc _ _ trivial) fun r => emits_bind (emits_checkPBError _ _ _ _) fun _ => by
    cases r with
    | error e => exact emits_logFatalf _ _
    | ok resp =>
      exact emits_bind (emits_println _ _) fun _ => emits_bind (emits_println _ _) fun _ =>
        emits_bind (emits_println _ _) fun _ => emits_pure _ _

theorem emits_handleWalletRecover (env : Env) (root mnemonic accountKey : String) :
    Emits Event.isRpc (handleWalletRecover env root mnemonic accountKey) :=
  emits_bind (emits_invoke Event.isRpc _ _ trivial) fun _ =>
    emits_bind (emits_checkPBError _ _ _ _) fun _ => emits_println _ _

theorem emits_handleAccountSelect (env : Env) (id root addr : String) :
    Emits Event.isRpc (handleAccountSelect env id root addr) :=
  emits_bind (emits_invoke Event.isRpc _ _ trivial) fun _ =>
    emits_bind (emits_checkPBError _ _ _ _) fun _ => emits_println _ _

theorem emits_handleAccountCreate (env : Env) (root name addr : String) :
    Emits Event.isRpc (handleAccountCreate env root name addr) :=
  emits_bind (emits_invoke Event.isRpc _ _ trivial) fun r => emits_bind (emits_checkPBError _ _ _ _) fun _ => by
    cases r with
    | error e => exact emits_logFatalf _ _
    | ok resp =>
      show Emits _ (match resp.account with
        | none => logFatalf .accountNil
        | some id => do println (.accountCreated id); pure id)
      cases resp.account with
      | none => exact emits_logFatalf _ _
      | some id => exact emits_bind (emits_println _ _) fun _ => emits_pure _ _

theorem emits_handleCreateApp (env : Env) (appName token : String) :
    Emits Event.isRpc (handleCreateApp env appName token) :=
  emits_bind (emits_invoke Event.isRpc _ _ trivial) fun r => emits_bind (emits_checkPBError _ _ _ _) fun _ => by
    cases r with
    | error e => exact emits_logFatalf _ _
    | ok resp =>
      show Emits _ (if resp.appKey = "" then logFatalf .emptyAppKey else pure resp.appKey)
      split
      · exact emits_logFatalf _ _
      · exact emits_pure _ _

theorem emits_createFullSession (env : Env) (mnemonic accountKey : String) :
    Emits Event.isRpc (createFullSession env mnemonic accountKey) := by
  intro w
  rw [createFullSession_run]
  cases sessionAuth mnemonic accountKey with
  | none => exact ⟨[], [], by simp [Res.world], by simp, by simp [Res.world]⟩
  | some auth =>
    have key : ∀ r : Res String, r.world = w.emit (.rpc (.walletCreateSession auth)) →
        ∃ t o, r.world.trace = w.trace ++ t ∧ (∀ e ∈ t, Event.isRpc e) ∧ r.world.out = w.out ++ o :=
      fun r h => ⟨[.rpc (.walletCreateSession auth)], [], by simp [h], by simp [Event.isRpc],
        by simp [h]⟩
    apply key
    dsimp only
    cases env.walletCreateSession (w.trace ++ [.rpc (.walletCreateSession auth)]) with
    | error e => rfl
    | ok r =>
      dsimp only
      split <;> rfl

theorem emits_handleAccountStop (env : Env) (token : String) :
    Emits Event.isRpc (handleAccountStop env token) :=
  emits_bind (emits_invoke Event.isRpc _ _ trivial) fun _ => emits_checkPBError _ _ _ _

theorem emits_deriveAccountID (env : Env) (mnemonic accountKey : String) :
    Emits (fun _ => True) (deriveAccountID env mnemonic accountKey) := by
  unfold deriveAccountID
  split
  · refine emits_bind (emits_emit (fun _ => True) _ trivial) fun _ => ?_
    split
    · exact emits_logFatalf _ _
    · exact emits_pure _ _
  · refine emits_bind (emits_emit (fun _ => True) _ trivial) fun _ => ?_
    split
    · exact emits_logFatalf _ _
    · exact emits_pure _ _

theorem emits_waitAndListSpaces (env : Env) (addr key : String) (wait : Int) :
    Emits (fun _ => True) (waitAndListSpaces env addr key wait) := by
  intro w
  rw [waitAndListSpaces_run]
  cases pollLoop (pollSteps env addr key w) (w.now + wait) (pollFuel wait) 0 w.now with
  | none => exact ⟨[], [], by simp [Res.world], by simp, by simp [Res.world]⟩
  | some e =>
    dsimp only
    cases e.result with
    | returned r => exact ⟨_, [], rfl, by simp, by simp [Res.world, World.afterPoll]⟩
    | panicked => exact ⟨_, [], rfl, by simp, by simp [Res.world, World.afterPoll]⟩

theorem emits_printSpaces (P : Event → Prop) (spaces : List Space) : Emits P (printSpaces spaces) :=
  fun w => ⟨[], _, by simp [Res.world, printSpaces], by simp, rfl⟩

theorem emits_restart (env : Env) (flags : Flags) (b : Boot) :
    Emits Event.isRpc (restart env flags b) :=
  emits_bind (emits_println _ _) fun _ => emits_bind (emits_handleAccountStop _ _) fun _ =>
    emits_bind (emits_handleAccountSelect _ _ _ _) fun _ =>
      emits_bind (emits_createFullSession _ _ _) fun _ =>
        emits_bind (emits_handleCreateApp _ _ _) fun _ => emits_pure _ _

theorem emits_awaitSpaces (env : Env) (flags : Flags) (b : Boot) :
    Emits (fun _ => True) (awaitSpaces env flags b) := by
  unfold awaitSpaces
  split
  · refine emits_bind (emits_waitAndListSpaces _ _ _ _) fun r => ?_
    cases r with
    | ok spaces => exact emits_printSpaces _ _
    | error e =>
      refine emits_bind (emits_weaken (emits_restart _ _ _) fun _ _ => trivial) fun s =>
        emits_bind (emits_waitAndListSpaces _ _ _ _) fun r2 => ?_
      cases r2 with
      | ok spaces => exact emits_printSpaces _ _
      | error e2 => exact emits_println _ _
  · exact emits_pure _ _

theorem bootstrap_create (env : Env) (flags : Flags) (w : World) (h : flags.createNewAcc = true) :
    bootstrap env flags w =
      (handleWalletCreate env flags.rootPath >>= fun wallet =>
        handleAccountCreate env flags.rootPath flags.accountName flags.jsonapiAddr >>= fun id =>
          authorize env flags
            { mnemonic := wallet.1, accountKey := wallet.2, accountID := id }) w := by
  unfold bootstrap authorize
  simp only [h, if_true, bind_run, pure_run]

theorem bootstrap_recover (env : Env) (flags : Flags) (w : World)
    (h : flags.createNewAcc = false) (hident : ¬ (flags.mnemonic = "" ∧ flags.accountKey = "")) :
    bootstrap env flags w =
      (handleWalletRecover env flags.rootPath flags.mnemonic flags.accountKey >>= fun _ =>
        (if flags.accountID = "" then deriveAccountID env flags.mnemonic flags.accountKey
          else pure flags.accountID) >>= fun id =>
          handleAccountSelect env id flags.rootPath flags.jsonapiAddr >>= fun _ =>
            authorize env flags
              { mnemonic := flags.mnemonic, accountKey := flags.accountKey, accountID := id }) w := by
  unfold bootstrap authorize
  simp only [h, hident, if_false, bind_run, pure_run, Bool.false_eq_true]
  cases handleWalletRecover env flags.rootPath flags.mnemonic flags.accountKey w with
  | ok u w1 =>
    dsimp only
    by_cases hid : flags.accountID = ""
    · simp only [hid, if_true, bind_run]
      cases deriveAccountID env flags.mnemonic flags.accountKey w1 with
      | ok id w2 =>
        dsimp only
        cases handleAccountSelect env id flags.rootPath flags.jsonapiAddr w2 <;> rfl
      | fatal e w2 => rfl
      | hang w2 => rfl
    · simp only [hid, if_false, bind_run, pure_run]
  | fatal e w1 => rfl
  | hang w1 => rfl

theorem bind_eq_ok {m : Proc α} {f : α → Proc β} {w w2 : World} {b : β}
    (h : (m >>= f) w = .ok b w2) : ∃ a w1, m w = .ok a w1 ∧ f a w1 = .ok b w2 := by
  rw [bind_run] at h
  cases hm : m w with
  | ok a w1 =>
    rw [hm] at h
    exact ⟨a, w1, rfl, h⟩
  | fatal e w1 =>
    rw [hm] at h
    cases h
  | hang w1 =>
    rw [hm] at h
    cases h

/-- What a returning `createFullSession` says of the service. -/
theorem createFullSession_eq_ok {env : Env} {mnemonic accountKey token : String} {w w1 : World}
    (h : createFullSession env mnemonic accountKey w = .ok token w1) :
    ∃ auth r, sessionAuth mnemonic accountKey = some auth ∧
      env.walletCreateSession (w.trace ++ [.rpc (.walletCreateSession auth)]) = .ok r ∧
      r.token = token ∧ token ≠ "" ∧ w1 = w.emit (.rpc (.walletCreateSession auth)) := by
  rw [createFullSession_run] at h
  cases ha : sessionAuth mnemonic accountKey with
  | none =>
    rw [ha] at h
    cases h
  | some auth =>
    rw [ha] at h
    dsimp only at h
    cases hr : env.walletCreateSession (w.trace ++ [.rpc (.walletCreateSession auth)]) with
    | error e =>
      rw [hr] at h
      cases h
    | ok r =>
      rw [hr] at h
      dsimp only at h
      by_cases ht : r.token = ""
      · rw [if_pos ht] at h
        cases h
      · rw [if_neg ht] at h
        cases h
        exact ⟨auth, r, rfl, hr, rfl, ht, rfl⟩

/-- What a returning `handleCreateApp` says of the service. -/
theorem handleCreateApp_eq_ok {env : Env} {appName token appKey : String} {w w1 : World}
    (h : handleCreateApp env appName token w = .ok appKey w1) :
    ∃ r, env.accountLocalLinkCreateApp
        (w.trace ++ [.rpc (.accountLocalLinkCreateApp token appName .jsonAPI)]) = .ok r ∧
      r.appKey = appKey ∧ appKey ≠ "" ∧
      w1 = w.emit (.rpc (.accountLocalLinkCreateApp token appName .jsonAPI)) := by
  rw [handleCreateApp_run] at h
  cases hr : env.accountLocalLinkCreateApp
      (w.trace ++ [.rpc (.accountLocalLinkCreateApp token appName .jsonAPI)]) with
  | error e =>
    rw [hr] at h
    cases h
  | ok r =>
    rw [hr] at h
    dsimp only at h
    by_cases hc : getCode r.error ≠ 0
    · rw [if_pos hc] at h
      cases h
    · rw [if_neg hc] at h
      by_cases hk : r.appKey = ""
      · rw [if_pos hk] at h
        cases h
      · rw [if_neg hk] at h
        cases h
        exact ⟨r, rfl, rfl, hk, rfl⟩

/-- What a returning `authorize` returns. -/
theorem authorize_eq_ok {env : Env} {flags : Flags} {vars : Vars} {b : Boot} {w w2 : World}
    (h : authorize env flags vars w = .ok b w2) :
    b.mnemonic = vars.mnemonic ∧ b.accountKey = vars.accountKey ∧ b.accountID = vars.accountID ∧
      b.sessionToken ≠ "" ∧ b.appKey ≠ "" := by
  unfold authorize at h
  obtain ⟨tok, w1, h1, h⟩ := bind_eq_ok h
  obtain ⟨key, w3, h2, h⟩ := bind_eq_ok h
  obtain ⟨_, _, _, _, _, htok, _⟩ := createFullSession_eq_ok h1
  obtain ⟨_, _, _, hkey, _⟩ := handleCreateApp_eq_ok h2
  cases h
  exact ⟨rfl, rfl, rfl, htok, hkey⟩

theorem emits_authorize (env : Env) (flags : Flags) (vars : Vars) :
    Emits Event.isRpc (authorize env flags vars) :=
  emits_bind (emits_createFullSession _ _ _) fun _ =>
    emits_bind (emits_handleCreateApp _ _ _) fun _ => emits_pure _ _

/-! ## The stages of `main` -/

/-- `main` is its start-up, the bootstrap, the banner and the wait for spaces. -/
theorem main_eq (env : Env) (flags : Flags) :
    main env flags = (do
      if flags.rootPath = "" then logFatalf .missingRoot
      match env.dial with
      | some e => logFatalf (.dial e)
      | none => pure ()
      sendInitialSetParameters env flags.platform flags.version flags.rootPath
      let b ← bootstrap env flags
      println .ready
      println (.accountID b.accountID)
      println (.listenAddress flags.jsonapiAddr)
      println (.bearerToken b.appKey)
      println (.example b.appKey flags.jsonapiAddr)
      awaitSpaces env flags b) := rfl

theorem main_after_bootstrap (env : Env) (flags : Flags) (w w1 w2 : World) (b : Boot)
    (hroot : flags.rootPath ≠ "") (hdial : env.dial = none)
    (hisp : sendInitialSetParameters env flags.platform flags.version flags.rootPath w = .ok () w1)
    (hboot : bootstrap env flags w1 = .ok b w2) :
    main env flags w = awaitSpaces env flags b (w2.announce flags b) := by
  rw [main_eq]
  simp only [hroot, hdial, if_false, bind_run, pure_run, hisp, hboot, println_run]
  rfl

/-- What a returning `bootstrap` returns: a non-empty token and a non-empty key. -/
theorem bootstrap_eq_ok {env : Env} {flags : Flags} {w w1 : World} {b : Boot}
    (h : bootstrap env flags w = .ok b w1) : b.sessionToken ≠ "" ∧ b.appKey ≠ "" := by
  by_cases hc : flags.createNewAcc = true
  · rw [bootstrap_create env flags w hc] at h
    obtain ⟨_, _, _, h⟩ := bind_eq_ok h
    obtain ⟨_, _, _, h⟩ := bind_eq_ok h
    exact (authorize_eq_ok h).2.2.2
  · have hc : flags.createNewAcc = false := by simpa using hc
    by_cases hident : flags.mnemonic = "" ∧ flags.accountKey = ""
    · have : bootstrap env flags w = .fatal .noIdentity w := by
        simp [bootstrap, hc, hident.1, hident.2, bind_run]
      rw [this] at h
      cases h
    · rw [bootstrap_recover env flags w hc hident] at h
      obtain ⟨_, _, _, h⟩ := bind_eq_ok h
      obtain ⟨_, _, _, h⟩ := bind_eq_ok h
      obtain ⟨_, _, _, h⟩ := bind_eq_ok h
      exact (authorize_eq_ok h).2.2.2

/-- What a returning poll leaves: at least one request, all of them the GET
with the given bearer key, and nothing printed. -/
theorem waitAndListSpaces_eq_ok {env : Env} {addr key : String} {wait : Int} {w w1 : World}
    {r : Except String (List Space)} (h : waitAndListSpaces env addr key wait w = .ok r w1) :
    ∃ n, 0 < n ∧
      w1.trace = w.trace ++ List.replicate n (.httpGet (spacesURL addr) ("Bearer " ++ key)) ∧
      w1.out = w.out := by
  have hurl := waitAndListSpaces_ok_url h
  rw [waitAndListSpaces_run] at h
  cases hp : pollLoop (pollSteps env addr key w) (w.now + wait) (pollFuel wait) 0 w.now with
  | none =>
    rw [hp] at h
    cases h
  | some e =>
    rw [hp] at h
    obtain ⟨r2, hr, hn⟩ :=
      pollLoop_returned _ _ (pollSteps_request env addr key w hurl) _ _ _ _ hp
    dsimp only at h
    rw [hr] at h
    cases h
    exact ⟨e.requests, Nat.lt_of_le_of_lt (Nat.zero_le 0) hn, rfl, rfl⟩

theorem handleAccountStop_eq_ok {env : Env} {token : String} {w w1 : World}
    (h : handleAccountStop env token w = .ok () w1) :
    w1 = w.emit (.rpc (.accountStop (if token ≠ "" then some token else none))) := by
  rw [handleAccountStop_run] at h
  split at h
  · cases h
  · cases h
    rfl

theorem handleAccountSelect_eq_ok {env : Env} {id root addr : String} {w w1 : World}
    (h : handleAccountSelect env id root addr w = .ok () w1) :
    w1 = (w.emit (.rpc (.accountSelect id root addr))).print (.accountSelected id) := by
  rw [handleAccountSelect_run] at h
  split at h
  · cases h
  · split at h
    · cases h
    · cases h
      rfl

/-- What a returning `restart` has done: the four calls in their order, with
the first session token on AccountStop and the new one on
AccountLocalLinkCreateApp, and the credentials it returns are the ones the
service has just issued. -/
theorem restart_eq_ok {env : Env} {flags : Flags} {b : Boot} {w w1 : World} {s : Renewed}
    (hb : b.sessionToken ≠ "") (h : restart env flags b w = .ok s w1) :
    ∃ auth rs rl, sessionAuth b.mnemonic b.accountKey = some auth ∧
      w1.trace = w.trace ++
        [.rpc (.accountStop (some b.sessionToken)),
         .rpc (.accountSelect b.accountID flags.rootPath flags.jsonapiAddr),
         .rpc (.walletCreateSession auth),
         .rpc (.accountLocalLinkCreateApp s.sessionToken flags.appName .jsonAPI)] ∧
      w1.out = w.out ++ [.notReady flags.waitSpaces, .accountSelected b.accountID] ∧
      env.walletCreateSession (w.trace ++
        [.rpc (.accountStop (some b.sessionToken)),
         .rpc (.accountSelect b.accountID flags.rootPath flags.jsonapiAddr),
         .rpc (.walletCreateSession auth)]) = .ok rs ∧
      rs.token = s.sessionToken ∧
      env.accountLocalLinkCreateApp (w.trace ++
        [.rpc (.accountStop (some b.sessionToken)),
         .rpc (.accountSelect b.accountID flags.rootPath flags.jsonapiAddr),
         .rpc (.walletCreateSession auth),
         .rpc (.accountLocalLinkCreateApp s.sessionToken flags.appName .jsonAPI)]) = .ok rl ∧
      rl.appKey = s.appKey := by
  unfold restart at h
  obtain ⟨_, wa, h1, h⟩ := bind_eq_ok h
  obtain ⟨_, wb, h2, h⟩ := bind_eq_ok h
  obtain ⟨_, wc, h3, h⟩ := bind_eq_ok h
  obtain ⟨tok, wd, h4, h⟩ := bind_eq_ok h
  obtain ⟨key, we, h5, h⟩ := bind_eq_ok h
  cases h
  cases h1
  have e2 := handleAccountStop_eq_ok h2
  rw [if_pos hb] at e2
  have e3 := handleAccountSelect_eq_ok h3
  obtain ⟨auth, rs, ha, hrs, htok, _, e4⟩ := createFullSession_eq_ok h4
  obtain ⟨rl, hrl, hkey, _, e5⟩ := handleCreateApp_eq_ok h5
  subst e2 e3 e4 e5
  refine ⟨auth, rs, rl, ha, by simp, by simp, ?_, htok, ?_, hkey⟩
  · simpa using hrs
  · simpa using hrl

theorem awaitSpaces_first_failed (env : Env) (flags : Flags) (b : Boot) (w w3 : World)
    (err : String) (hwait : 0 < flags.waitSpaces)
    (hpoll : waitAndListSpaces env flags.jsonapiAddr b.appKey flags.waitSpaces w =
      .ok (.error err) w3) :
    awaitSpaces env flags b w =
      (restart env flags b >>= fun renewed =>
        waitAndListSpaces env flags.jsonapiAddr renewed.appKey flags.waitSpaces >>= fun r2 =>
          match r2 with
          | .ok spaces => printSpaces spaces
          | .error err2 => println (.stillEmpty flags.waitSpaces err2)) w3 := by
  unfold awaitSpaces
  have hw : flags.waitSpaces > 0 := hwait
  simp only [hw, if_true]
  rw [bind_ok _ _ _ _ _ hpoll]

theorem awaitSpaces_first_ok (env : Env) (flags : Flags) (b : Boot) (w w3 : World)
    (spaces : List Space) (hwait : 0 < flags.waitSpaces)
    (hpoll : waitAndListSpaces env flags.jsonapiAddr b.appKey flags.waitSpaces w =
      .ok (.ok spaces) w3) :
    awaitSpaces env flags b w = printSpaces spaces w3 := by
  unfold awaitSpaces
  have hw : flags.waitSpaces > 0 := hwait
  simp only [hw, if_true]
  rw [bind_ok _ _ _ _ _ hpoll]

/-- An outcome that is not a 200 response with a non-empty collection is not
ready, whichever of the four other kinds it is. -/
theorem readySpaces_eq_none (o : HttpOutcome)
    (h : ∀ d, o = .response 200 (some d) → d = []) : readySpaces o = none := by
  cases hr : readySpaces o with
  | none => rfl
  | some data =>
    have := (readySpaces_eq_some o data).mp hr
    exact absurd (h data this.1) this.2

/-- The calls of `handleAccountSelect` followed by `authorize`: the
AccountSelect with the given id, then gRPC calls only. -/
theorem select_authorize_trace (env : Env) (flags : Flags) (vars : Vars) (w : World) :
    ∃ t, ((handleAccountSelect env vars.accountID flags.rootPath flags.jsonapiAddr >>= fun _ =>
        authorize env flags vars) w).world.trace =
        w.trace ++ .rpc (.accountSelect vars.accountID flags.rootPath flags.jsonapiAddr) :: t ∧
      ∀ e ∈ t, Event.isRpc e := by
  rw [bind_run, handleAccountSelect_run]
  cases env.accountSelect
      (w.trace ++ [.rpc (.accountSelect vars.accountID flags.rootPath flags.jsonapiAddr)]) with
  | error e => exact ⟨[], by simp [Res.world], by simp⟩
  | ok r =>
    dsimp only
    by_cases hc : getCode r.error ≠ 0
    · rw [if_pos hc]
      exact ⟨[], by simp [Res.world], by simp⟩
    · rw [if_neg hc]
      dsimp only
      obtain ⟨t, _, h1, h2, _⟩ := emits_authorize env flags vars
        ((w.emit (.rpc (.accountSelect vars.accountID flags.rootPath flags.jsonapiAddr))).print
          (.accountSelected vars.accountID))
      exact ⟨t, by simp [h1], h2⟩

theorem select_authorize_eq_ok (env : Env) (flags : Flags) (vars : Vars) (w w2 : World) (b : Boot)
    (h : (handleAccountSelect env vars.accountID flags.rootPath flags.jsonapiAddr >>= fun _ =>
        authorize env flags vars) w = .ok b w2) : b.accountID = vars.accountID := by
  obtain ⟨_, _, _, h⟩ := bind_eq_ok h
  exact (authorize_eq_ok h).2.2.1

/-- The run at the address "a b", from whose URL no request is built: the
bootstrap succeeds, the banner is printed, and the first iteration of the poll
panics with nothing sent; the exit status is 2. -/
theorem run_unparsable_address :
    run mockEnv { mockFlags with jsonapiAddr := "a b", waitSpaces := 1 * second } =
      .fatal .nilPointer
        { trace := createCalls { mockFlags with jsonapiAddr := "a b" } (.accountKey "k1") "s1",
          out := createLines { mockFlags with jsonapiAddr := "a b" } "abc" "k1" "acc1" "bk1",
          now := 0 } ∧
    (run mockEnv
      { mockFlags with jsonapiAddr := "a b", waitSpaces := 1 * second }).exitCode = some 2 :=
  ⟨rfl, rfl⟩

/-! ## The properties -/

/-- C1, at the failing input: AccountStop answers with error code 1 in its
payload and no transport error, and `checkPBError` lets it pass, so
`handleAccountStop` returns to its caller; likewise `createFullSession` returns
the token of a WalletCreateSession response that carries error code 1. The two
error types are missing from the type switch of `extractPBError`. -/
theorem checkPBError_ignores_accountStop_payload_error :
    extractPBError (.accountStop (some { code := 1, description := "unknown error" })) = (0, "", false) ∧
    checkPBError "AccountStop" none
        (.accountStop (some { code := 1, description := "unknown error" })) World.initial =
      .ok () World.initial ∧
    handleAccountStop payloadErrorEnv "s1" World.initial =
      .ok () { trace := [.rpc (.accountStop (some "s1"))], out := [], now := 0 } ∧
    createFullSession payloadErrorEnv "" "k1" World.initial =
      .ok "s1" { trace := [.rpc (.walletCreateSession (.accountKey "k1"))], out := [], now := 0 } := by
  refine ⟨rfl, rfl, rfl, rfl⟩

/-- C2: the WalletCreateSession request that `createFullSession` sends carries
the account key whenever the account key is non-empty; it carries the mnemonic
exactly when the account key is empty and the mnemonic is not; when both are
empty the process exits fatally and nothing is sent. In the first two cases
that request is the only call issued. -/
theorem createFullSession_auth (env : Env) (mnemonic accountKey : String) (w : World) :
    (accountKey ≠ "" →
      (createFullSession env mnemonic accountKey w).world.trace =
        w.trace ++ [.rpc (.walletCreateSession (.accountKey accountKey))]) ∧
    ((createFullSession env mnemonic accountKey w).world.trace =
        w.trace ++ [.rpc (.walletCreateSession (.mnemonic mnemonic))] ↔
      accountKey = "" ∧ mnemonic ≠ "") ∧
    (accountKey = "" ∧ mnemonic = "" →
      createFullSession env mnemonic accountKey w = .fatal .noSessionMaterial w) := by
  have sent : ∀ auth, sessionAuth mnemonic accountKey = some auth →
      (createFullSession env mnemonic accountKey w).world.trace =
        w.trace ++ [.rpc (.walletCreateSession auth)] := by
    intro auth h
    rw [createFullSession_run, h]
    dsimp only
    cases env.walletCreateSession (w.trace ++ [.rpc (.walletCreateSession auth)]) with
    | error e => rfl
    | ok r =>
      dsimp only
      split <;> rfl
  by_cases hk : accountKey = ""
  · by_cases hm : mnemonic = ""
    · have hnone : createFullSession env mnemonic accountKey w = .fatal .noSessionMaterial w := by
        rw [createFullSession_run]
        simp [sessionAuth, hk, hm]
      refine ⟨fun h => absurd hk h, ⟨fun h => ?_, fun h => absurd hm h.2⟩, fun _ => hnone⟩
      rw [hnone] at h
      simp [Res.world] at h
    · have h := sent (.mnemonic mnemonic) (by simp [sessionAuth, hk, hm])
      exact ⟨fun h => absurd hk h, ⟨fun _ => ⟨hk, hm⟩, fun _ => h⟩, fun h => absurd h.2 hm⟩
  · have h := sent (.accountKey accountKey) (by simp [sessionAuth, hk])
    refine ⟨fun _ => h, ⟨fun h2 => ?_, fun h2 => absurd h2.1 hk⟩, fun h2 => absurd h2.1 hk⟩
    rw [h] at h2
    simp at h2

/-- C2 at mnemonic "abc" and account key "k1": the request carries "k1". -/
theorem createFullSession_auth_witness :
    (createFullSession mockEnv "abc" "k1" World.initial).world.trace =
      [.rpc (.walletCreateSession (.accountKey "k1"))] :=
  (createFullSession_auth mockEnv "abc" "k1" World.initial).1 (by decide)

/-- C3: with a root path, recover mode and neither mnemonic nor account key,
the process exits fatally; the calls it issued are InitialSetParameters alone
(none at all when the dial failed), so no call that consumes identity material. -/
theorem main_recover_without_identity (env : Env) (flags : Flags)
    (hroot : flags.rootPath ≠ "") (hcreate : flags.createNewAcc = false)
    (hm : flags.mnemonic = "") (hk : flags.accountKey = "") :
    (run env flags).exitCode = some 1 ∧
    (run env flags).world.trace =
      (if env.dial = none then
        [.rpc (.initialSetParameters flags.platform flags.version flags.rootPath)]
      else []) ∧
    (∀ e ∈ (run env flags).world.trace,
      e = .rpc (.initialSetParameters flags.platform flags.version flags.rootPath)) ∧
    (∀ c, Event.rpc c ∈ (run env flags).world.trace → c.consumesIdentity = false) := by
  have key : (run env flags).exitCode = some 1 ∧
      (run env flags).world.trace =
        (if env.dial = none then
          [.rpc (.initialSetParameters flags.platform flags.version flags.rootPath)]
        else []) := by
    have hboot : ∀ w, bootstrap env flags w = .fatal .noIdentity w := by
      intro w
      simp [bootstrap, hcreate, hm, hk, bind_run]
    unfold run
    rw [main_eq]
    cases hd : env.dial with
    | some e => simp [hroot, bind_run, Res.exitCode, Res.world, World.initial]
    | none =>
      simp only [hroot, if_false, bind_run, pure_run, sendInitialSetParameters_run, hboot]
      cases env.initialSetParameters
          (World.initial.trace ++
            [.rpc (.initialSetParameters flags.platform flags.version flags.rootPath)]) with
      | error e => simp [Res.exitCode, Res.world, World.initial]
      | ok r =>
        by_cases hc : getCode r.error = 0
        · simp [hc, Res.exitCode, Res.world, World.initial]
        · simp [hc, Res.exitCode, Res.world, World.initial]
  have only : ∀ e ∈ (run env flags).world.trace,
      e = .rpc (.initialSetParameters flags.platform flags.version flags.rootPath) := by
    intro e he
    rw [key.2] at he
    split at he
    · exact List.mem_singleton.mp he
    · simp at he
  refine ⟨key.1, key.2, only, ?_⟩
  intro c hc
  have := only _ hc
  simp only [Event.rpc.injEq] at this
  subst this
  rfl

/-- C3 at the default flags with root "/tmp/x": the run is fatal after
InitialSetParameters alone. -/
theorem main_recover_without_identity_witness :
    (run mockEnv { Flags.defaults with rootPath := "/tmp/x" }).exitCode = some 1 ∧
    (run mockEnv { Flags.defaults with rootPath := "/tmp/x" }).world.trace =
      [.rpc (.initialSetParameters "jsonapi-cli" "0.0.0-jsonapi" "/tmp/x")] :=
  ⟨(main_recover_without_identity mockEnv { Flags.defaults with rootPath := "/tmp/x" }
      (by decide) rfl rfl rfl).1,
   (main_recover_without_identity mockEnv { Flags.defaults with rootPath := "/tmp/x" }
      (by decide) rfl rfl rfl).2.1⟩

/-- C4: when round `i` (counted from 0) is the first 200 response that decodes
to a non-empty collection, and the deadline had not passed at the check after
each earlier round, `waitAndListSpaces` returns exactly that collection with no
error and has issued exactly `i + 1` requests; the earlier rounds, errors or
empty, did not end the poll. -/
theorem waitAndListSpaces_first_ready (env : Env) (addr key : String) (wait : Int) (w : World)
    (i : Nat) (data : List Space)
    (hready : (pollSteps env addr key w i).outcome = .response 200 (some data))
    (hne : data ≠ [])
    (hearlier : ∀ j, j < i →
      (∀ d, (pollSteps env addr key w j).outcome = .response 200 (some d) → d = []) ∧
      ((checkAt (pollSteps env addr key w) w.now j : Nat) : Int) ≤ w.now + wait) :
    waitAndListSpaces env addr key wait w =
      .ok (.ok data)
        { trace := w.trace ++ List.replicate (i + 1) (.httpGet (spacesURL addr) ("Bearer " ++ key)),
          out := w.out,
          now := checkAt (pollSteps env addr key w) w.now i } := by
  have hfuel : i < pollFuel wait := by
    unfold pollFuel
    cases i with
    | zero => omega
    | succ i =>
      have h1 := (hearlier i (Nat.lt_succ_self i)).2
      have h2 := clockAt_ge (pollSteps env addr key w) w.now i
      have h3 := pollInterval_eq
      unfold checkAt at h1
      rw [h3] at h2 ⊢
      omega
  have hurl : env.newRequest (spacesURL addr) = true := by
    cases hu : env.newRequest (spacesURL addr) with
    | true => rfl
    | false =>
      rw [pollSteps_nilRequest env addr key w hu i] at hready
      cases hready
  have hrun := pollLoop_ready (pollSteps env addr key w) (w.now + wait) w.now data i 0
    (pollFuel wait) hfuel
    (fun j _ hj =>
      ⟨pollSteps_request env addr key w hurl j,
        readySpaces_eq_none _ (hearlier j (by omega)).1, (hearlier j (by omega)).2⟩)
    (by
      rw [Nat.zero_add]
      exact (readySpaces_eq_some _ _).mpr ⟨hready, hne⟩)
  rw [waitAndListSpaces_run]
  simp only [clockAt] at hrun
  rw [hrun]
  simp [World.afterPoll]

/-- C4 on a data API that fails in the four ways before it serves a space: the
fifth request returns the space, 25 seconds in. -/
theorem waitAndListSpaces_first_ready_witness :
    waitAndListSpaces flakyEnv defaultJsonApi "bk1" defaultWaitSpaces World.initial =
      .ok (.ok [{ id := "sp1", name := "Home" }])
        { trace := List.replicate 5 (.httpGet "http://127.0.0.1:31009/v1/spaces" "Bearer bk1"),
          out := [],
          now := 25 * second } :=
  (waitAndListSpaces_first_ready flakyEnv defaultJsonApi "bk1" defaultWaitSpaces World.initial 4
    [{ id := "sp1", name := "Home" }] rfl (by decide)
    (fun j hj => by
      have hcases : j = 0 ∨ j = 1 ∨ j = 2 ∨ j = 3 := by omega
      rcases hcases with h | h | h | h <;> subst h <;>
        exact ⟨fun d hd => by
          simp only [pollSteps, flakyEnv, World.initial, List.nil_append, List.length_replicate] at hd
          cases hd <;> rfl,
          by decide⟩)).trans rfl

/-- C5 as stated fails, by the time a request takes and by the time a sleep
takes. With a wait budget of one second and a first request that runs into the
ten-second client timeout, the failure is returned ten seconds after the first
attempt began; with the same budget, requests answered at once and a sleep that
overshoots by two seconds, it is returned after seven seconds. Both are later
than W + P = 6 s. -/
theorem waitAndListSpaces_failure_after_W_plus_P :
    ((∀ j, readySpaces (pollSteps slowEnv defaultJsonApi "bk1" World.initial j).outcome = none) ∧
      waitAndListSpaces slowEnv defaultJsonApi "bk1" (1 * second) World.initial =
        .ok pollFailure
          { trace := [.httpGet "http://127.0.0.1:31009/v1/spaces" "Bearer bk1"], out := [],
            now := 10 * second } ∧
      ¬ ((10 * second : Int) - World.initial.now ≤ 1 * second + pollInterval)) ∧
    ((∀ j, readySpaces (pollSteps oversleepEnv defaultJsonApi "bk1" World.initial j).outcome =
        none) ∧
      waitAndListSpaces oversleepEnv defaultJsonApi "bk1" (1 * second) World.initial =
        .ok pollFailure
          { trace := List.replicate 2 (.httpGet "http://127.0.0.1:31009/v1/spaces" "Bearer bk1"),
            out := [], now := 7 * second } ∧
      ¬ ((7 * second : Int) - World.initial.now ≤ 1 * second + pollInterval)) := by
  refine ⟨⟨fun j => rfl, rfl, by decide⟩, ⟨fun j => rfl, rfl, by decide⟩⟩

/-- C5 as amended: for a data-API address from which `http.NewRequest` builds a
request, when no round is a 200 response with a non-empty collection, every
request takes at most `D` and every sleep overshoots by at most `E`, a poll
with budget `W > 0` returns its failure at a time `t` after its start with
`W ≤ t ≤ W + P + D + E`, where `P` is the poll interval of five seconds. -/
theorem waitAndListSpaces_failure_time (env : Env) (addr key : String) (wait : Int) (w : World)
    (D E : Nat) (hwait : 0 < wait)
    (hurl : env.newRequest (spacesURL addr) = true)
    (hnever : ∀ j d, (pollSteps env addr key w j).outcome = .response 200 (some d) → d = [])
    (hdur : ∀ j, (pollSteps env addr key w j).reqDur ≤ D)
    (hsleep : ∀ j, (pollSteps env addr key w j).sleepExtra ≤ E) :
    ∃ w1, waitAndListSpaces env addr key wait w = .ok pollFailure w1 ∧
      wait ≤ (w1.now : Int) - w.now ∧
      (w1.now : Int) - w.now ≤ wait + pollInterval + D + E := by
  have hfuel : pollFuel wait - 1 + 1 = pollFuel wait := by unfold pollFuel; omega
  obtain ⟨k, _, hrun, hlate, hearly⟩ :=
    pollLoop_notReady (pollSteps env addr key w) (w.now + wait) w.now
      (pollSteps_request env addr key w hurl)
      (fun j => readySpaces_eq_none _ (hnever j)) (pollFuel wait - 1) 0
      (by simpa [clockAt] using pollFuel_spec w.now wait)
  rw [hfuel] at hrun
  simp only [clockAt] at hrun
  refine ⟨_, by rw [waitAndListSpaces_run, hrun]; rfl, ?_, ?_⟩
  · simp only [World.afterPoll]
    omega
  · simp only [World.afterPoll]
    cases k with
    | zero =>
      have := hdur 0
      simp only [checkAt, clockAt]
      omega
    | succ k =>
      have h1 := hearly k (Nat.zero_le k) (Nat.lt_succ_self k)
      have h2 := hdur (k + 1)
      have h3 := hsleep k
      simp only [checkAt, clockAt] at h1 ⊢
      omega

/-- C5 as amended, on a data API that answers at once with an empty collection
and a budget of twelve seconds: the failure comes within [12 s, 17 s]. -/
theorem waitAndListSpaces_failure_time_witness :
    ∃ w1, waitAndListSpaces mockEnv defaultJsonApi "bk1" (12 * second) World.initial =
        .ok pollFailure w1 ∧
      (12 * second : Int) ≤ (w1.now : Int) - World.initial.now ∧
      (w1.now : Int) - World.initial.now ≤ (12 * second : Int) + pollInterval + (0 : Nat) + (0 : Nat) :=
  waitAndListSpaces_failure_time mockEnv defaultJsonApi "bk1" (12 * second) World.initial 0 0
    (by decide) rfl
    (fun j d hd => by
      have hd2 : HttpOutcome.response 200 (some []) = .response 200 (some d) := hd
      cases hd2
      rfl)
    (fun j => Nat.le_refl 0) (fun j => Nat.le_refl 0)

/-- C10: whenever `bootstrap` returns, in either mode, the session token and
the bearer key it returns are non-empty; a WalletCreateSession response with an
empty token, an AccountLocalLinkCreateApp response with an empty app key and an
AccountCreate response without account each end the process fatally. -/
theorem bootstrap_returns_nonempty (env : Env) (flags : Flags) :
    (∀ w b w1, bootstrap env flags w = .ok b w1 → b.sessionToken ≠ "" ∧ b.appKey ≠ "") ∧
    (∀ mnemonic accountKey w auth r, sessionAuth mnemonic accountKey = some auth →
      env.walletCreateSession (w.trace ++ [.rpc (.walletCreateSession auth)]) = .ok r →
      r.token = "" →
      createFullSession env mnemonic accountKey w =
        .fatal .emptyToken (w.emit (.rpc (.walletCreateSession auth)))) ∧
    (∀ appName token w r,
      env.accountLocalLinkCreateApp
        (w.trace ++ [.rpc (.accountLocalLinkCreateApp token appName .jsonAPI)]) = .ok r →
      r.appKey = "" →
      (handleCreateApp env appName token w).exitCode = some 1) ∧
    (∀ root name addr w r,
      env.accountCreate (w.trace ++ [.rpc (.accountCreate name createProfileIcon addr)]) = .ok r →
      r.account = none →
      (handleAccountCreate env root name addr w).exitCode = some 1) := by
  refine ⟨?_, ?_, ?_, ?_⟩
  · intro w b w1 h
    exact bootstrap_eq_ok h
  · intro mnemonic accountKey w auth r ha hr ht
    rw [createFullSession_run, ha]
    simp only [hr, ht, if_true]
  · intro appName token w r hr hk
    rw [handleCreateApp_run, hr]
    dsimp only
    by_cases hc : getCode r.error ≠ 0
    · rw [if_pos hc]
      rfl
    · rw [if_neg hc, if_pos hk]
      rfl
  · intro root name addr w r hr ha
    rw [handleAccountCreate_run, hr]
    dsimp only
    split
    · rfl
    · rw [ha]
      rfl

/-- C10 on the mocked service in create mode: the bootstrap returns token "s1"
and bearer key "bk1". -/
theorem bootstrap_returns_nonempty_witness :
    ({ mnemonic := "abc", accountKey := "k1", accountID := "acc1", appKey := "bk1",
       sessionToken := "s1" } : Boot).sessionToken ≠ "" ∧
    ({ mnemonic := "abc", accountKey := "k1", accountID := "acc1", appKey := "bk1",
       sessionToken := "s1" } : Boot).appKey ≠ "" :=
  (bootstrap_returns_nonempty mockEnv mockFlags).1 World.initial
    { mnemonic := "abc", accountKey := "k1", accountID := "acc1", appKey := "bk1",
      sessionToken := "s1" }
    (bootstrap mockEnv mockFlags World.initial).world rfl

/-- C8: in recover mode, once WalletRecover has succeeded, the id given to
AccountSelect and returned for the banner is the supplied account id when that
is non-empty, and then AccountSelect is the next call and no derivation is
made; when it is empty the id is derived first: from the mnemonic at index 0
whenever the mnemonic is non-empty, from the account key when the mnemonic is
empty, and a failing derivation ends the process fatally before AccountSelect. -/
theorem bootstrap_recover_accountID (env : Env) (flags : Flags) (w w1 : World)
    (hcreate : flags.createNewAcc = false)
    (hident : ¬ (flags.mnemonic = "" ∧ flags.accountKey = ""))
    (hrec : handleWalletRecover env flags.rootPath flags.mnemonic flags.accountKey w = .ok () w1) :
    (flags.accountID ≠ "" →
      (∃ t, (bootstrap env flags w).world.trace =
          w1.trace ++ .rpc (.accountSelect flags.accountID flags.rootPath flags.jsonapiAddr) :: t ∧
        ∀ e ∈ t, Event.isRpc e) ∧
      (∀ b w2, bootstrap env flags w = .ok b w2 → b.accountID = flags.accountID)) ∧
    (flags.accountID = "" → flags.mnemonic ≠ "" →
      (∀ id, env.walletAccountAt flags.mnemonic 0 = .ok id →
        (∃ t, (bootstrap env flags w).world.trace =
            w1.trace ++ .walletAccountAt flags.mnemonic 0 ::
              .rpc (.accountSelect id flags.rootPath flags.jsonapiAddr) :: t ∧
          ∀ e ∈ t, Event.isRpc e) ∧
        (∀ b w2, bootstrap env flags w = .ok b w2 → b.accountID = id)) ∧
      (∀ err, env.walletAccountAt flags.mnemonic 0 = .error err →
        bootstrap env flags w =
          .fatal (.deriveMnemonic err) (w1.emit (.walletAccountAt flags.mnemonic 0)))) ∧
    (flags.accountID = "" → flags.mnemonic = "" →
      (∀ id, env.walletDeriveFromAccountMasterNode flags.accountKey = .ok id →
        (∃ t, (bootstrap env flags w).world.trace =
            w1.trace ++ .walletDeriveFromAccountMasterNode flags.accountKey ::
              .rpc (.accountSelect id flags.rootPath flags.jsonapiAddr) :: t ∧
          ∀ e ∈ t, Event.isRpc e) ∧
        (∀ b w2, bootstrap env flags w = .ok b w2 → b.accountID = id)) ∧
      (∀ err, env.walletDeriveFromAccountMasterNode flags.accountKey = .error err →
        bootstrap env flags w =
          .fatal (.deriveAccountKey err)
            (w1.emit (.walletDeriveFromAccountMasterNode flags.accountKey)))) := by
  have supplied : flags.accountID ≠ "" → bootstrap env flags w =
      (handleAccountSelect env flags.accountID flags.rootPath flags.jsonapiAddr >>= fun _ =>
        authorize env flags
          { mnemonic := flags.mnemonic, accountKey := flags.accountKey,
            accountID := flags.accountID }) w1 := by
    intro hid
    rw [bootstrap_recover env flags w hcreate hident]
    simp only [bind_run, hrec, if_neg hid, pure_run]
  have derived : ∀ id w2, flags.accountID = "" →
      deriveAccountID env flags.mnemonic flags.accountKey w1 = .ok id w2 →
      bootstrap env flags w =
        (handleAccountSelect env id flags.rootPath flags.jsonapiAddr >>= fun _ =>
          authorize env flags
            { mnemonic := flags.mnemonic, accountKey := flags.accountKey, accountID := id }) w2 := by
    intro id w2 hid hder
    rw [bootstrap_recover env flags w hcreate hident]
    simp only [bind_run, hrec, if_pos hid, hder]
  have failed : ∀ f w2, flags.accountID = "" →
      deriveAccountID env flags.mnemonic flags.accountKey w1 = .fatal f w2 →
      bootstrap env flags w = .fatal f w2 := by
    intro f w2 hid hder
    rw [bootstrap_recover env flags w hcreate hident]
    simp only [bind_run, hrec, if_pos hid, hder]
  refine ⟨fun hid => ?_, fun hid hm => ⟨fun id hd => ?_, fun err hd => ?_⟩,
    fun hid hm => ⟨fun id hd => ?_, fun err hd => ?_⟩⟩
  · rw [supplied hid]
    exact ⟨select_authorize_trace env flags
        { mnemonic := flags.mnemonic, accountKey := flags.accountKey,
          accountID := flags.accountID } w1,
      fun b w2 h => select_authorize_eq_ok env flags
        { mnemonic := flags.mnemonic, accountKey := flags.accountKey,
          accountID := flags.accountID } w1 w2 b h⟩
  · have hder : deriveAccountID env flags.mnemonic flags.accountKey w1 =
        .ok id (w1.emit (.walletAccountAt flags.mnemonic 0)) := by
      rw [deriveAccountID_run, if_pos hm, hd]
    rw [derived id _ hid hder]
    refine ⟨?_, fun b w2 h => select_authorize_eq_ok env flags
        { mnemonic := flags.mnemonic, accountKey := flags.accountKey, accountID := id }
        _ w2 b h⟩
    obtain ⟨t, h1, h2⟩ := select_authorize_trace env flags
      { mnemonic := flags.mnemonic, accountKey := flags.accountKey, accountID := id }
      (w1.emit (.walletAccountAt flags.mnemonic 0))
    exact ⟨t, by rw [h1]; simp, h2⟩
  · have hder : deriveAccountID env flags.mnemonic flags.accountKey w1 =
        .fatal (.deriveMnemonic err) (w1.emit (.walletAccountAt flags.mnemonic 0)) := by
      rw [deriveAccountID_run, if_pos hm, hd]
    exact failed _ _ hid hder
  · have hder : deriveAccountID env flags.mnemonic flags.accountKey w1 =
        .ok id (w1.emit (.walletDeriveFromAccountMasterNode flags.accountKey)) := by
      rw [deriveAccountID_run]
      simp only [hm, ne_eq, not_true_eq_false, if_false, hd]
    rw [derived id _ hid hder]
    refine ⟨?_, fun b w2 h => select_authorize_eq_ok env flags
        { mnemonic := flags.mnemonic, accountKey := flags.accountKey, accountID := id }
        _ w2 b h⟩
    obtain ⟨t, h1, h2⟩ := select_authorize_trace env flags
      { mnemonic := flags.mnemonic, accountKey := flags.accountKey, accountID := id }
      (w1.emit (.walletDeriveFromAccountMasterNode flags.accountKey))
    exact ⟨t, by rw [h1]; simp, h2⟩
  · have hder : deriveAccountID env flags.mnemonic flags.accountKey w1 =
        .fatal (.deriveAccountKey err)
          (w1.emit (.walletDeriveFromAccountMasterNode flags.accountKey)) := by
      rw [deriveAccountID_run]
      simp only [hm, ne_eq, not_true_eq_false, if_false, hd]
    exact failed _ _ hid hder

/-- C8 with mnemonic "abc" and account key "k1" both supplied and no account
id: the id is derived from the mnemonic at index 0 and given to AccountSelect. -/
theorem bootstrap_recover_accountID_witness :
    ∃ t, (bootstrap mockEnv
        { Flags.defaults with rootPath := "/tmp/x", mnemonic := "abc", accountKey := "k1" }
        World.initial).world.trace =
        [.rpc (.walletRecover "/tmp/x" "abc" "k1")] ++ .walletAccountAt "abc" 0 ::
          .rpc (.accountSelect "acc-of-mnemonic" "/tmp/x" "127.0.0.1:31009") :: t ∧
      ∀ e ∈ t, Event.isRpc e :=
  (((bootstrap_recover_accountID mockEnv
      { Flags.defaults with rootPath := "/tmp/x", mnemonic := "abc", accountKey := "k1" }
      World.initial _ rfl (by decide) rfl).2.1 rfl (by decide)).1 "acc-of-mnemonic" rfl).1

/-- C7 as stated fails: on a service whose calls all succeed and whose
WalletCreate returns the mnemonic "abc" with an empty account key, the
WalletCreateSession request is authenticated with the mnemonic. -/
theorem main_create_session_uses_mnemonic :
    noKeyEnv.walletCreate
        [.rpc (.initialSetParameters "jsonapi-cli" "0.0.0-jsonapi" "/tmp/x"),
         .rpc (.walletCreate "/tmp/x")] =
      .ok { error := none, mnemonic := "abc", accountKey := "" } ∧
    run noKeyEnv mockFlags =
      .ok ()
        { trace :=
            [.rpc (.initialSetParameters "jsonapi-cli" "0.0.0-jsonapi" "/tmp/x"),
             .rpc (.walletCreate "/tmp/x"),
             .rpc (.accountCreate "Json API user" 0 "127.0.0.1:31009"),
             .rpc (.walletCreateSession (.mnemonic "abc")),
             .rpc (.accountLocalLinkCreateApp "s1" "jsonapi-cli" .jsonAPI)],
          out :=
            [.walletCreated, .mnemonic "abc", .accountKey "", .accountCreated "acc1", .ready,
             .accountID "acc1", .listenAddress "127.0.0.1:31009", .bearerToken "bk1",
             .example "bk1" "127.0.0.1:31009"],
          now := 0 } :=
  ⟨rfl, rfl⟩

/-- C7 as amended: in create mode, when every call succeeds and WalletCreate
returns a non-empty account key, the run begins with InitialSetParameters,
WalletCreate(root), AccountCreate(name, icon 0, data-API address),
WalletCreateSession authenticated with the returned account key, and
AccountLocalLinkCreateApp with the returned session token; the banner reports
the account id AccountCreate returned and the app key AccountLocalLinkCreateApp
returned; and without a wait for spaces the run is exactly that and exits 0. -/
theorem main_create_sequence (env : Env) (flags : Flags)
    (ri : RpcInitialSetParametersResponse) (rw : RpcWalletCreateResponse)
    (ra : RpcAccountCreateResponse) (rs : RpcWalletCreateSessionResponse)
    (rl : RpcAccountLocalLinkCreateAppResponse) (acc : String)
    (hcreate : flags.createNewAcc = true) (hroot : flags.rootPath ≠ "")
    (hdial : env.dial = none)
    (hi : env.initialSetParameters
      ((createCalls flags (.accountKey rw.accountKey) rs.token).take 1) = .ok ri)
    (hi0 : getCode ri.error = 0)
    (hw : env.walletCreate
      ((createCalls flags (.accountKey rw.accountKey) rs.token).take 2) = .ok rw)
    (hw0 : getCode rw.error = 0) (hkey : rw.accountKey ≠ "")
    (ha : env.accountCreate
      ((createCalls flags (.accountKey rw.accountKey) rs.token).take 3) = .ok ra)
    (ha0 : getCode ra.error = 0) (hacc : ra.account = some acc)
    (hs : env.walletCreateSession
      ((createCalls flags (.accountKey rw.accountKey) rs.token).take 4) = .ok rs)
    (htok : rs.token ≠ "")
    (hl : env.accountLocalLinkCreateApp
      (createCalls flags (.accountKey rw.accountKey) rs.token) = .ok rl)
    (hl0 : getCode rl.error = 0) (hbk : rl.appKey ≠ "") :
    (∃ t o,
      (run env flags).world.trace = createCalls flags (.accountKey rw.accountKey) rs.token ++ t ∧
      (run env flags).world.out =
        createLines flags rw.mnemonic rw.accountKey acc rl.appKey ++ o) ∧
    (flags.waitSpaces ≤ 0 →
      run env flags =
        .ok ()
          { trace := createCalls flags (.accountKey rw.accountKey) rs.token,
            out := createLines flags rw.mnemonic rw.accountKey acc rl.appKey,
            now := 0 }) := by
  simp only [createCalls, List.take, List.take_succ_cons, List.take_zero] at hi hw ha hs hl
  have h1 : sendInitialSetParameters env flags.platform flags.version flags.rootPath
      World.initial =
      .ok () (World.initial.emit
        (.rpc (.initialSetParameters flags.platform flags.version flags.rootPath))) := by
    rw [sendInitialSetParameters_run]
    simp [World.initial, hi, hi0]
  have h2 : bootstrap env flags (World.initial.emit
        (.rpc (.initialSetParameters flags.platform flags.version flags.rootPath))) =
      .ok { mnemonic := rw.mnemonic, accountKey := rw.accountKey, accountID := acc,
            appKey := rl.appKey, sessionToken := rs.token }
        { trace := createCalls flags (.accountKey rw.accountKey) rs.token,
          out := [.walletCreated, .mnemonic rw.mnemonic, .accountKey rw.accountKey,
            .accountCreated acc],
          now := 0 } := by
    rw [bootstrap_create env flags _ hcreate]
    simp [bind_run, authorize, handleWalletCreate_run, handleAccountCreate_run,
      createFullSession_run, handleCreateApp_run, sessionAuth, World.initial, World.emit,
      World.print, createProfileIcon, createCalls, hw, hw0, hkey, ha, ha0, hacc, hs, htok, hl,
      hl0, hbk]
  have h3 := main_after_bootstrap env flags _ _ _ _ hroot hdial h1 h2
  unfold run
  rw [h3]
  constructor
  · obtain ⟨t, o, g1, _, g3⟩ := emits_awaitSpaces env flags
      { mnemonic := rw.mnemonic, accountKey := rw.accountKey, accountID := acc,
        appKey := rl.appKey, sessionToken := rs.token }
      (World.announce
        { trace := createCalls flags (.accountKey rw.accountKey) rs.token,
          out := [.walletCreated, .mnemonic rw.mnemonic, .accountKey rw.accountKey,
            .accountCreated acc],
          now := 0 } flags
        { mnemonic := rw.mnemonic, accountKey := rw.accountKey, accountID := acc,
          appKey := rl.appKey, sessionToken := rs.token })
    exact ⟨t, o, g1, by rw [g3]; simp [World.announce, World.print, createLines]⟩
  · intro hwait
    have : ¬ (flags.waitSpaces > 0) := by omega
    simp [awaitSpaces, this, World.announce, World.print, createLines]

/-- C7 as amended on the mocked service: root "/tmp/x", wallet ("abc", "k1"),
account "acc1", token "s1", key "bk1" give account id "acc1" and bearer key "bk1". -/
theorem main_create_sequence_witness :
    run mockEnv mockFlags =
      .ok ()
        { trace :=
            [.rpc (.initialSetParameters "jsonapi-cli" "0.0.0-jsonapi" "/tmp/x"),
             .rpc (.walletCreate "/tmp/x"),
             .rpc (.accountCreate "Json API user" 0 "127.0.0.1:31009"),
             .rpc (.walletCreateSession (.accountKey "k1")),
             .rpc (.accountLocalLinkCreateApp "s1" "jsonapi-cli" .jsonAPI)],
          out :=
            [.walletCreated, .mnemonic "abc", .accountKey "k1", .accountCreated "acc1", .ready,
             .accountID "acc1", .listenAddress "127.0.0.1:31009", .bearerToken "bk1",
             .example "bk1" "127.0.0.1:31009"],
          now := 0 } :=
  (main_create_sequence mockEnv mockFlags { error := none }
    { error := none, mnemonic := "abc", accountKey := "k1" }
    { error := none, account := some "acc1" } { error := none, token := "s1" }
    { error := none, appKey := "bk1" } "acc1" rfl (by decide) rfl rfl rfl rfl rfl (by decide)
    rfl rfl rfl rfl (by decide) rfl rfl (by decide)).2 (by decide)

/-- C6 as stated fails: the bootstrap succeeds, the budget of one second is
positive and the first poll fails, yet AccountStop fails in transport and the
process exits fatally with AccountStop the only call after the first poll. -/
theorem main_restart_cut_short :
    run stopFailsEnv { mockFlags with waitSpaces := 1 * second } =
      .fatal (.callFailed "AccountStop" "connection closed")
        { trace :=
            [.rpc (.initialSetParameters "jsonapi-cli" "0.0.0-jsonapi" "/tmp/x"),
             .rpc (.walletCreate "/tmp/x"),
             .rpc (.accountCreate "Json API user" 0 "127.0.0.1:31009"),
             .rpc (.walletCreateSession (.accountKey "k1")),
             .rpc (.accountLocalLinkCreateApp "s1" "jsonapi-cli" .jsonAPI),
             .httpGet "http://127.0.0.1:31009/v1/spaces" "Bearer bk1",
             .httpGet "http://127.0.0.1:31009/v1/spaces" "Bearer bk1",
             .rpc (.accountStop (some "s1"))],
          out :=
            [.walletCreated, .mnemonic "abc", .accountKey "k1", .accountCreated "acc1", .ready,
             .accountID "acc1", .listenAddress "127.0.0.1:31009", .bearerToken "bk1",
             .example "bk1" "127.0.0.1:31009", .notReady (1 * second)],
          now := 5 * second } :=
  rfl

/-- C6 as amended: after a successful bootstrap, with a positive wait budget.
When the first poll fails and none of the restart calls ends the process, the
calls after the first poll are AccountStop with the first session token,
AccountSelect with the same account id, root path and data-API address,
WalletCreateSession, AccountLocalLinkCreateApp with the session token just
issued, and then the requests of one second poll, with the bearer key just
issued and the same budget; the run is what remains of `main` in the world
that second poll returns, one print, so nothing follows it, and the process
exits 0. When a restart call ends the process, the run ends there without a
second poll. When the first poll succeeds, the run is the print of the spaces
in the world that poll returns: its requests are the last calls of the run. -/
theorem main_restart_sequence (env : Env) (flags : Flags) (w1 w2 : World) (b : Boot)
    (hroot : flags.rootPath ≠ "") (hdial : env.dial = none)
    (hisp : sendInitialSetParameters env flags.platform flags.version flags.rootPath
      World.initial = .ok () w1)
    (hboot : bootstrap env flags w1 = .ok b w2) (hwait : 0 < flags.waitSpaces) :
    (∀ err w3 s w7,
      waitAndListSpaces env flags.jsonapiAddr b.appKey flags.waitSpaces (w2.announce flags b) =
        .ok (.error err) w3 →
      restart env flags b w3 = .ok s w7 →
      ∃ auth n r2 w8 rs rl,
        sessionAuth b.mnemonic b.accountKey = some auth ∧
        w7.trace = w3.trace ++
          [.rpc (.accountStop (some b.sessionToken)),
           .rpc (.accountSelect b.accountID flags.rootPath flags.jsonapiAddr),
           .rpc (.walletCreateSession auth),
           .rpc (.accountLocalLinkCreateApp s.sessionToken flags.appName .jsonAPI)] ∧
        env.walletCreateSession (w3.trace ++
          [.rpc (.accountStop (some b.sessionToken)),
           .rpc (.accountSelect b.accountID flags.rootPath flags.jsonapiAddr),
           .rpc (.walletCreateSession auth)]) = .ok rs ∧
        rs.token = s.sessionToken ∧
        env.accountLocalLinkCreateApp w7.trace = .ok rl ∧ rl.appKey = s.appKey ∧
        waitAndListSpaces env flags.jsonapiAddr s.appKey flags.waitSpaces w7 = .ok r2 w8 ∧
        0 < n ∧
        w8.trace =
          w7.trace ++
            List.replicate n (.httpGet (spacesURL flags.jsonapiAddr) ("Bearer " ++ s.appKey)) ∧
        run env flags =
          (match r2 with
            | .ok spaces => printSpaces spaces
            | .error err2 => println (.stillEmpty flags.waitSpaces err2)) w8 ∧
        (run env flags).world.trace = w8.trace ∧
        (run env flags).world.now = w8.now ∧
        (run env flags).world.trace =
          w7.trace ++
            List.replicate n (.httpGet (spacesURL flags.jsonapiAddr) ("Bearer " ++ s.appKey)) ∧
        (run env flags).exitCode = some 0) ∧
    (∀ err w3 f w7,
      waitAndListSpaces env flags.jsonapiAddr b.appKey flags.waitSpaces (w2.announce flags b) =
        .ok (.error err) w3 →
      restart env flags b w3 = .fatal f w7 →
      run env flags = .fatal f w7) ∧
    (∀ spaces w3,
      waitAndListSpaces env flags.jsonapiAddr b.appKey flags.waitSpaces (w2.announce flags b) =
        .ok (.ok spaces) w3 →
      ∃ n, 0 < n ∧
        w3.trace =
          w2.trace ++
            List.replicate n (.httpGet (spacesURL flags.jsonapiAddr) ("Bearer " ++ b.appKey)) ∧
        run env flags = printSpaces spaces w3 ∧
        (run env flags).world.trace = w3.trace ∧
        (run env flags).world.trace =
          w2.trace ++
            List.replicate n (.httpGet (spacesURL flags.jsonapiAddr) ("Bearer " ++ b.appKey)) ∧
        (run env flags).exitCode = some 0) := by
  have hmain := main_after_bootstrap env flags _ _ _ _ hroot hdial hisp hboot
  have hb := (bootstrap_eq_ok hboot).1
  refine ⟨?_, ?_, ?_⟩
  · intro err w3 s w7 hpoll hrestart
    obtain ⟨auth, rs, rl, ha, ht, _, hrs, htok, hrl, hkey⟩ := restart_eq_ok hb hrestart
    obtain ⟨r2, w8, hp2⟩ :=
      waitAndListSpaces_returns env flags.jsonapiAddr s.appKey flags.waitSpaces w7
        (waitAndListSpaces_ok_url hpoll)
    obtain ⟨n, hn, hn2, _⟩ := waitAndListSpaces_eq_ok hp2
    have hrun : run env flags =
        (match r2 with
          | .ok spaces => printSpaces spaces
          | .error err2 => println (.stillEmpty flags.waitSpaces err2)) w8 := by
      unfold run
      rw [hmain, awaitSpaces_first_failed env flags b _ w3 err hwait hpoll,
        bind_ok _ _ _ _ _ hrestart, bind_ok _ _ _ _ _ hp2]
    have htrace : (run env flags).world.trace = w8.trace := by
      rw [hrun]
      cases r2 <;> rfl
    refine ⟨auth, n, r2, w8, rs, rl, ha, ht, hrs, htok, by rw [ht]; exact hrl, hkey, hp2, hn,
      hn2, hrun, htrace, ?_, by rw [htrace, hn2], ?_⟩
    · rw [hrun]
      cases r2 <;> rfl
    · rw [hrun]
      cases r2 <;> rfl
  · intro err w3 f w7 hpoll hrestart
    unfold run
    rw [hmain, awaitSpaces_first_failed env flags b _ w3 err hwait hpoll,
      bind_fatal _ _ _ _ _ hrestart]
  · intro spaces w3 hpoll
    obtain ⟨n, hn, hn2, _⟩ := waitAndListSpaces_eq_ok hpoll
    have hn3 : w3.trace = w2.trace ++
        List.replicate n (.httpGet (spacesURL flags.jsonapiAddr) ("Bearer " ++ b.appKey)) := by
      simpa [World.announce] using hn2
    have hrun : run env flags = printSpaces spaces w3 := by
      unfold run
      rw [hmain, awaitSpaces_first_ok env flags b _ w3 spaces hwait hpoll]
    have htrace : (run env flags).world.trace = w3.trace := by
      rw [hrun]
      rfl
    exact ⟨n, hn, hn3, hrun, htrace, by rw [htrace, hn3], by rw [hrun]; rfl⟩

/-- C6 as amended on a service that issues "s2" and "bk2" after the restart: the
calls after the first poll are the four restart calls, the last with "s2", and
the requests of a second poll with "bk2", in whose world the run ends. -/
theorem main_restart_sequence_witness :
    ∃ auth n r2 w8 rs rl,
      sessionAuth retryBoot.mnemonic retryBoot.accountKey = some auth ∧
      (retryRestarted "s2").trace = retryPolled.trace ++
        [.rpc (.accountStop (some "s1")),
         .rpc (.accountSelect "acc1" "/tmp/x" "127.0.0.1:31009"),
         .rpc (.walletCreateSession auth),
         .rpc (.accountLocalLinkCreateApp "s2" "jsonapi-cli" .jsonAPI)] ∧
      renewEnv.walletCreateSession (retryPolled.trace ++
        [.rpc (.accountStop (some "s1")),
         .rpc (.accountSelect "acc1" "/tmp/x" "127.0.0.1:31009"),
         .rpc (.walletCreateSession auth)]) = .ok rs ∧
      rs.token = "s2" ∧
      renewEnv.accountLocalLinkCreateApp (retryRestarted "s2").trace = .ok rl ∧
      rl.appKey = "bk2" ∧
      waitAndListSpaces renewEnv "127.0.0.1:31009" "bk2" (1 * second) (retryRestarted "s2") =
        .ok r2 w8 ∧
      0 < n ∧
      w8.trace =
        (retryRestarted "s2").trace ++
          List.replicate n (.httpGet (spacesURL "127.0.0.1:31009") ("Bearer " ++ "bk2")) ∧
      run renewEnv retryFlags =
        (match r2 with
          | .ok spaces => printSpaces spaces
          | .error err2 => println (.stillEmpty (1 * second) err2)) w8 ∧
      (run renewEnv retryFlags).world.trace = w8.trace ∧
      (run renewEnv retryFlags).world.now = w8.now ∧
      (run renewEnv retryFlags).world.trace =
        (retryRestarted "s2").trace ++
          List.replicate n (.httpGet (spacesURL "127.0.0.1:31009") ("Bearer " ++ "bk2")) ∧
      (run renewEnv retryFlags).exitCode = some 0 :=
  (main_restart_sequence renewEnv retryFlags
      (World.initial.emit (.rpc (.initialSetParameters "jsonapi-cli" "0.0.0-jsonapi" "/tmp/x")))
      retryBooted retryBoot (by decide) rfl rfl rfl (by decide)).1
    "spaces still empty or unavailable" retryPolled { sessionToken := "s2", appKey := "bk2" }
    (retryRestarted "s2") rfl rfl

/-- C9: when the bootstrap succeeds and both the first poll and the poll after
the restart return the failure, the process prints the final diagnostic and
returns from `main`, exit code 0; the output is what the bootstrap printed, the
banner with the account id and bearer key of that first bootstrap, and then
only the lines of the restart and the final diagnostic. -/
theorem main_exhausted_exits_normally (env : Env) (flags : Flags) (w1 w2 w3 w7 w8 : World)
    (b : Boot) (s : Renewed) (err1 err2 : String)
    (hroot : flags.rootPath ≠ "") (hdial : env.dial = none)
    (hisp : sendInitialSetParameters env flags.platform flags.version flags.rootPath
      World.initial = .ok () w1)
    (hboot : bootstrap env flags w1 = .ok b w2) (hwait : 0 < flags.waitSpaces)
    (hpoll1 : waitAndListSpaces env flags.jsonapiAddr b.appKey flags.waitSpaces
      (w2.announce flags b) = .ok (.error err1) w3)
    (hrestart : restart env flags b w3 = .ok s w7)
    (hpoll2 : waitAndListSpaces env flags.jsonapiAddr s.appKey flags.waitSpaces w7 =
      .ok (.error err2) w8) :
    run env flags = .ok () (w8.print (.stillEmpty flags.waitSpaces err2)) ∧
    (run env flags).exitCode = some 0 ∧
    (run env flags).world.out =
      w2.out ++
        [.ready, .accountID b.accountID, .listenAddress flags.jsonapiAddr,
         .bearerToken b.appKey, .example b.appKey flags.jsonapiAddr] ++
        [.notReady flags.waitSpaces, .accountSelected b.accountID,
         .stillEmpty flags.waitSpaces err2] := by
  have hmain := main_after_bootstrap env flags _ _ _ _ hroot hdial hisp hboot
  have hrun : run env flags = .ok () (w8.print (.stillEmpty flags.waitSpaces err2)) := by
    unfold run
    rw [hmain, awaitSpaces_first_failed env flags b _ w3 err1 hwait hpoll1,
      bind_ok _ _ _ _ _ hrestart, bind_ok _ _ _ _ _ hpoll2]
    rfl
  obtain ⟨_, _, _, o1⟩ := waitAndListSpaces_eq_ok hpoll1
  obtain ⟨_, _, _, _, _, o2, _⟩ := restart_eq_ok (bootstrap_eq_ok hboot).1 hrestart
  obtain ⟨_, _, _, o3⟩ := waitAndListSpaces_eq_ok hpoll2
  refine ⟨hrun, by rw [hrun]; rfl, ?_⟩
  rw [hrun]
  simp [Res.world, o3, o2, o1, World.announce]

/-- C9 on the mocked service, whose data API always answers with an empty
collection: the run exits 0 after the final diagnostic. -/
theorem main_exhausted_exits_normally_witness :
    run mockEnv retryFlags =
      .ok ()
        { trace := (retryRestarted "s1").trace ++
            List.replicate 2 (.httpGet "http://127.0.0.1:31009/v1/spaces" "Bearer bk1"),
          out := createLines retryFlags "abc" "k1" "acc1" "bk1" ++
            [.notReady (1 * second), .accountSelected "acc1",
             .stillEmpty (1 * second) "spaces still empty or unavailable"],
          now := 10 * second } :=
  (main_exhausted_exits_normally mockEnv retryFlags
    (World.initial.emit (.rpc (.initialSetParameters "jsonapi-cli" "0.0.0-jsonapi" "/tmp/x")))
    retryBooted retryPolled (retryRestarted "s1")
    { trace := (retryRestarted "s1").trace ++
        List.replicate 2 (.httpGet "http://127.0.0.1:31009/v1/spaces" "Bearer bk1"),
      out := (retryRestarted "s1").out, now := 10 * second }
    retryBoot { sessionToken := "s1", appKey := "bk1" }
    "spaces still empty or unavailable" "spaces still empty or unavailable"
    (by decide) rfl rfl rfl (by decide) rfl rfl rfl).1

end JsonapiBootstrap
